import Mathlib

/-!
Verification of the augmentation tracker of the mar-library repository
(src/src/augment/mar_augment.cpp and its headers) against its
natural-language specification.

The C code is shallowly embedded: float arithmetic is modelled over the
rationals, the external trigonometric functions (libm sin and cos) are
abstracted as a pair of rational functions, and the external armadillo
pseudoinverse used for the least-squares fit is abstracted as a solver
parameter. Fallible operations return a result type. All definitions are
translated from the source file; definitions whose names end in the word
claim are statements of the specification text, used as comparison targets.
-/

/-- Largest finite single-precision float, the value of FLT_MAX from
float.h used at line 298 of mar_augment.cpp to seed the running best
distance. Over the rationals it is the exact value (2 - 2 ^ (-23)) * 2 ^ 127. -/
def FLT_MAX : ℚ := 2 ^ 128 - 2 ^ 104

/-- MAR_MAX_KEYPOINT_DIFFERENCE from mar_augment.h: maximum difference
between two keypoints to be considered matching. -/
def MAR_MAX_KEYPOINT_DIFFERENCE : ℚ := 2

/-- MAR_MAX_NUM_OF_MATCHED_KEYPOINTS from mar_augment.h. -/
def MAR_MAX_MATCHED : ℕ := 256

/-- MAR_MIN_NUM_OF_MATCHED_KEYPOINTS from mar_augment.h. -/
def MAR_MIN_MATCHED : ℕ := 5

/-- MAR_MINIMUM_AUGMENTATION_KEYPOINTS from mar_augment.h. -/
def MAR_MIN_REG_KEYPOINTS : ℕ := 10

/-- MAR_MAX_NUMBER_OF_AUGMENTATION_KEYPOINTS from mar_augment.h. -/
def MAR_MAX_AUG_KEYPOINTS : ℕ := 512

/-- Error code MAR_ERROR_NONE from mar_error.h. -/
def ERR_NONE : ℕ := 0

/-- Error code MAR_ERROR_AUGMENTATION_NOT_INITIALIZED from mar_error.h. -/
def ERR_NOT_INIT : ℕ := 30

/-- Error code MAR_ERROR_TOO_FEW_MATCHING_KEYPOINTS from mar_error.h. -/
def ERR_TOO_FEW_MATCHING : ℕ := 31

/-- Error code MAR_ERROR_TOO_FEW_KEYPOINTS from mar_error.h. -/
def ERR_TOO_FEW_KEYPOINTS : ℕ := 32

/-- Error code MAR_ERROR_NO_AUGMENTATION_RESOURCES_AVAILABLE from mar_error.h. -/
def ERR_NO_RESOURCES : ℕ := 33

/-- Error code MAR_ERROR_AUGMENTATION_ID_DOES_NOT_EXIST from mar_error.h. -/
def ERR_UNKNOWN_ID : ℕ := 34

/-- A SIFT keypoint (mar_sift_keypoint from mar_sift.h): image coordinates,
radius and angle, and a descriptor of MAR_SIFT_NBO * MAR_SIFT_NBP *
MAR_SIFT_NBP = 8 * 4 * 4 = 128 floats. -/
structure Keypoint where
  x : ℚ
  y : ℚ
  radius : ℚ
  angle : ℚ
  descriptor : Fin 128 → ℚ

/-- Keypoint with all fields zero, used as the value read from
uninitialized or out-of-bounds C memory in the embedding. -/
def defaultKeypoint : Keypoint :=
  { x := 0, y := 0, radius := 0, angle := 0, descriptor := fun _ => 0 }

/-- Abstraction of the libm trigonometric functions called by
is_point_in_ellipse. The tracker treats sin and cos as external library
functions, so the embedding takes them as parameters. -/
structure Trig where
  sin : ℚ → ℚ
  cos : ℚ → ℚ

/-- Translation of get_keypoint_difference (mar_augment.cpp lines 240-253):
the L1 distance between two descriptors, the sum over all 128 components of
the absolute difference. -/
def get_keypoint_difference (k1 k2 : Keypoint) : ℚ :=
  ∑ i : Fin 128, |k1.descriptor i - k2.descriptor i|

/-- Running state of the loop in get_best_keypoint_match: best index so far
(minus one when none), best distance, second best distance, and the loop
counter. -/
structure BMState where
  bi : ℤ
  bd : ℚ
  sd : ℚ
  i : ℕ

/-- One iteration of the loop of get_best_keypoint_match
(mar_augment.cpp lines 301-315). -/
def bm_step (k : Keypoint) (st : BMState) (r : Keypoint) : BMState :=
  let d := get_keypoint_difference k r
  if d < st.bd then ⟨(st.i : ℤ), d, st.bd, st.i + 1⟩
  else if d < st.sd then ⟨st.bi, st.bd, d, st.i + 1⟩
  else ⟨st.bi, st.bd, st.sd, st.i + 1⟩

/-- Translation of get_best_keypoint_match (mar_augment.cpp lines 294-326).
Returns the pair of the result index (minus one for no match) and the value
stored through the best_difference out parameter. The initial state has
best_i = -1, best_diff = FLT_MAX and second_best_diff = 0; the final test
accepts when best_diff * MAR_UNIQUE_KEYPOINT_THRESHOLD <= second_best_diff
with MAR_UNIQUE_KEYPOINT_THRESHOLD = 3.5. -/
def get_best_keypoint_match (k : Keypoint) (keypoints : List Keypoint) : ℤ × ℚ :=
  let st := keypoints.foldl (bm_step k) ⟨-1, FLT_MAX, 0, 0⟩
  (if st.bd * (7 / 2) ≤ st.sd then st.bi else -1, st.bd)

/-- Translation of is_point_in_ellipse (mar_augment.cpp lines 268-280).
The rotation angle beta is the ellipse angle multiplied by 1 when a > b and
by -1 otherwise; the point, shifted by the center, is mapped through the
matrix with rows (cos beta, -sin beta) and (sin beta, cos beta) and tested
against the quadratic form with strict inequality. -/
def is_point_in_ellipse (trig : Trig) (px py ex ey a b ang : ℚ) : Bool :=
  let x := px - ex
  let y := py - ey
  let beta := ang * (if a > b then 1 else -1)
  let sinbeta := trig.sin beta
  let cosbeta := trig.cos beta
  let rx := cosbeta * x - sinbeta * y
  let ry := sinbeta * x + cosbeta * y
  decide ((rx * rx) / (a * a * 4) + (ry * ry) / (b * b * 4) < 1)

/-- Sign function used by the specification text of the ellipse predicate. -/
def qsign (t : ℚ) : ℚ := if 0 < t then 1 else if t < 0 then -1 else 0

/-- Statement of the specification of point_in_ellipse: rotate the
translated point by -sign(a - b) * theta and test the quadratic form
rx ^ 2 / (2 a) ^ 2 + ry ^ 2 / (2 b) ^ 2 < 1. Rotation by an angle phi is
taken in the image-plane convention (the y axis points down on screen), in
which rotating a point by phi applies the matrix with rows
(cos phi, sin phi) and (-sin phi, cos phi). -/
def point_in_ellipse_claim (trig : Trig) (px py ex ey a b ang : ℚ) : Bool :=
  let x := px - ex
  let y := py - ey
  let phi := -(qsign (a - b)) * ang
  let rx := trig.cos phi * x + trig.sin phi * y
  let ry := -(trig.sin phi) * x + trig.cos phi * y
  decide ((rx * rx) / ((2 * a) * (2 * a)) + (ry * ry) / ((2 * b) * (2 * b)) < 1)

/-- List of the descriptor distances from a probe keypoint to each
reference, in order. Specification-side definition for the matcher claim. -/
def bm_dists (k : Keypoint) (kps : List Keypoint) : List ℚ :=
  kps.map (get_keypoint_difference k)

/-- Minimum of a list of rationals with FLT_MAX as the value for the empty
list. Specification-side definition for the matcher claim. -/
def listMin (l : List ℚ) : ℚ := l.foldr min FLT_MAX

/-- Smallest distance d1 of the matcher specification. -/
def bm_d1 (k : Keypoint) (kps : List Keypoint) : ℚ := listMin (bm_dists k kps)

/-- Index of the first reference attaining the smallest distance. -/
def bm_argmin (k : Keypoint) (kps : List Keypoint) : ℕ :=
  (bm_dists k kps).indexOf (bm_d1 k kps)

/-- Second smallest distance d2 of the matcher specification: the minimum
of the distances with the first occurrence of the smallest one removed,
FLT_MAX when fewer than two references exist. -/
def bm_d2 (k : Keypoint) (kps : List Keypoint) : ℚ :=
  listMin ((bm_dists k kps).eraseIdx (bm_argmin k kps))

/-- Statement of the specification of best_match: the first index attaining
the smallest L1 distance d1 when d1 * 3.5 <= d2, the no-match sentinel -1
otherwise, with d1 always reported. -/
def best_match_claim (k : Keypoint) (kps : List Keypoint) : ℤ × ℚ :=
  (if bm_d1 k kps * (7 / 2) ≤ bm_d2 k kps then (bm_argmin k kps : ℤ) else -1,
   bm_d1 k kps)

/-- A 3 by 3 float matrix (arma fmat fixed 3 3), written out entrywise. -/
structure Mat3 where
  m00 : ℚ
  m01 : ℚ
  m02 : ℚ
  m10 : ℚ
  m11 : ℚ
  m12 : ℚ
  m20 : ℚ
  m21 : ℚ
  m22 : ℚ
deriving DecidableEq

/-- The zero 3 by 3 matrix, assigned to a fresh augmentation at
mar_augment.cpp lines 796-804. The armadillo pseudoinverse of the zero
matrix is again the zero matrix, so line 805 also stores the zero matrix. -/
def zeroMat3 : Mat3 := ⟨0, 0, 0, 0, 0, 0, 0, 0, 0⟩

/-- Application of an affine matrix to the homogeneous point (x, y, 1),
returning the first two coordinates, as done by
mar_augment_transform_point and mar_augment_untransform_point
(mar_augment.cpp lines 843-850 and 884-891). -/
def applyMat3 (m : Mat3) (x y : ℚ) : ℚ × ℚ :=
  (m.m00 * x + m.m01 * y + m.m02, m.m10 * x + m.m11 * y + m.m12)

/-- The six-parameter result vector T of the least-squares fit at
mar_augment.cpp line 576, in the order T(0) .. T(5), which the code reads
as m00, m01, m10, m11, tx, ty (lines 596-601). -/
structure AffineParams where
  m00 : ℚ
  m01 : ℚ
  m10 : ℚ
  m11 : ℚ
  tx : ℚ
  ty : ℚ

/-- Assembly of the transformation matrix from the fitted parameters,
mar_augment.cpp lines 596-604: the bottom row is set to 0, 0, 1. -/
def mat3OfParams (t : AffineParams) : Mat3 :=
  ⟨t.m00, t.m01, t.tx, t.m10, t.m11, t.ty, 0, 0, 1⟩

/-- The pseudoinverse solve T = pinv(A) * b at mar_augment.cpp line 576 is
performed by the external armadillo library; the embedding abstracts it as
a function from the list of correspondences (x, y, u, v) read while
building A and b to the six fitted parameters. -/
def Solver : Type := List (ℚ × ℚ × ℚ × ℚ) → AffineParams

/-- An MSER region (mar_mser from mar_mser.h): the oriented ellipse. -/
structure MserRegion where
  ellipse_x : ℚ
  ellipse_y : ℚ
  ellipse_a : ℚ
  ellipse_b : ℚ
  ellipse_angle : ℚ

/-- A mar_augmentation (mar_augment.cpp lines 45-65): the tracked MSER,
the forward and inverse transforms, the array of initial (reference)
keypoints with its count and ring cursor, and the potential keypoints with
their count. The two keypoint arrays have 512 slots in C; they are
modelled as lists whose entries beyond the respective counts correspond to
the not-yet-meaningful slots of the arrays. -/
structure Augmentation where
  mser : MserRegion
  transform : Mat3
  transform_inverse : Mat3
  initial_keypoints : List Keypoint
  num_initial_keypoints : ℕ
  new_keypoint_cursor : ℕ
  potential_keypoints : List Keypoint
  num_potential_keypoints : ℕ

/-- One slot of the parallel arrays x, y, u, v, differences of
mar_augment_update (mar_augment.cpp lines 379-380). -/
structure MatchEntry where
  x : ℚ
  y : ℚ
  u : ℚ
  v : ℚ
  d : ℚ

/-- Entry holding the initialization value of the differences array
(mar_augment.cpp lines 444-447): the difference slot holds
MAR_MAX_KEYPOINT_DIFFERENCE = 2 and the coordinate slots are
uninitialized C memory, modelled as zero. -/
def initEntry : MatchEntry := ⟨0, 0, 0, 0, 2⟩

/-- State of one matching pass: the 256-entry buffer and the counter
matched_keypoints. -/
structure MatchState where
  buf : List MatchEntry
  matched : ℕ

/-- The freshly initialized matching state set up at mar_augment.cpp lines
443-447 (and again at lines 496-500 before the fallback pass). -/
def initMatchState : MatchState := ⟨List.replicate 256 initEntry, 0⟩

/-- The slot placement loop of mar_augment_update (lines 463-484 and
516-537): find the first slot whose stored difference exceeds the new one,
shift the following entries one slot towards the end discarding the last,
and store the new entry in the freed slot. -/
def bufInsert (e : MatchEntry) : List MatchEntry → List MatchEntry
  | [] => []
  | f :: rest => if e.d < f.d then e :: (f :: rest).dropLast else f :: bufInsert e rest

/-- Guarded buffer update of mar_augment_update (lines 458-485): when the
new difference beats the last slot of the differences array the counter is
incremented and the entry is placed, otherwise nothing happens. -/
def matchStateAdd (st : MatchState) (rx ry px py d : ℚ) : MatchState :=
  if d < (st.buf.getD 255 initEntry).d then
    ⟨bufInsert ⟨rx, ry, px, py, d⟩ st.buf, st.matched + 1⟩
  else st

/-- The descriptor update of mar_augment.cpp line 488:
memcpy(initial_keypoints[k].descriptor, contained_keypoints[j].descriptor, 128)
copies 128 bytes, which is 32 of the 128 four-byte floats, so only the
first 32 descriptor components of the reference are replaced by the probe
components and the remaining 96 keep their old values. -/
def overwrite_descriptor (r q : Keypoint) : Keypoint :=
  { r with descriptor := fun i => if (i : ℕ) < 32 then q.descriptor i else r.descriptor i }

/-- One iteration of the patch-local matching loop of mar_augment_update
(lines 450-490): match the probe against the first n reference keypoints,
and on an accepted match attempt the guarded buffer insertion with the
reference coordinates as (x, y) and the probe coordinates as (u, v), then
overwrite the first 32 descriptor components of the matched reference with
those of the probe. -/
def patchStep (n : ℕ) (st : MatchState × List Keypoint) (q : Keypoint) :
    MatchState × List Keypoint :=
  let km := get_best_keypoint_match q (st.2.take n)
  if km.1 ≠ -1 then
    let r := st.2.getD km.1.toNat defaultKeypoint
    (matchStateAdd st.1 r.x r.y q.x q.y km.2,
     st.2.set km.1.toNat (overwrite_descriptor r q))
  else st

/-- The patch-local matching pass of mar_augment_update (lines 450-490),
iterating patchStep over the keypoints contained in the predicted patch.
Returns the final matching state together with the reference array, whose
descriptors drift during the pass. -/
def patchPass (probes refs : List Keypoint) (n : ℕ) (ms : MatchState) :
    MatchState × List Keypoint :=
  probes.foldl (patchStep n) (ms, refs)

/-- The fallback matching pass of mar_augment_update (lines 503-540) over
the whole frame: identical to the patch pass except that the reference
descriptors are not overwritten. -/
def fullPass (probes refs : List Keypoint) (n : ℕ) (ms : MatchState) : MatchState :=
  probes.foldl
    (fun st q =>
      let km := get_best_keypoint_match q (refs.take n)
      if km.1 ≠ -1 then
        let r := refs.getD km.1.toNat defaultKeypoint
        matchStateAdd st r.x r.y q.x q.y km.2
      else st)
    ms

/-- The list of buffer indices j read while building the design matrix A
and right-hand side b at mar_augment.cpp lines 554-573: the loop runs j
from 0 to matched_keypoints - 1 and reads x[j], y[j], u[j], v[j]. -/
def designIndices (matched : ℕ) : List ℕ := List.range matched

/-- The correspondences read while building the least-squares system
(lines 554-573), one quadruple (x[j], y[j], u[j], v[j]) per design index.
Reads beyond slot 255 leave the 256-slot C arrays; the embedding returns
the default entry there. -/
def designRows (st : MatchState) : List (ℚ × ℚ × ℚ × ℚ) :=
  (designIndices st.matched).map fun j =>
    let e := st.buf.getD j initEntry
    (e.x, e.y, e.u, e.v)

/-- The patch gather of mar_augment_update (lines 417-440): map every
frame keypoint through the inverse transform and keep those that land in
the instance ellipse. The C code runs the loop twice, once to count and
once to copy into a malloc buffer; the net effect is this filter. -/
def gatherContained (trig : Trig) (inst : Augmentation) (frame : List Keypoint) :
    List Keypoint :=
  frame.filter fun kp =>
    let o := applyMat3 inst.transform_inverse kp.x kp.y
    is_point_in_ellipse trig o.1 o.2 inst.mser.ellipse_x inst.mser.ellipse_y
      inst.mser.ellipse_a inst.mser.ellipse_b inst.mser.ellipse_angle

/-- Mutable state of the reference-growing loop of mar_augment_update
(lines 636-661): the initial keypoint array, the ring cursor, the potential
keypoint array (overwritten in place), and the count of new potentials. -/
structure GrowState where
  initial : List Keypoint
  cursor : ℕ
  pot : List Keypoint
  newPot : ℕ

/-- The reference-growing loop of mar_augment_update (lines 636-661).
The loop counter j, the loop bound nk (the local variable num_keypoints,
which the promotion branch at line 653 updates), and the state evolve
until j reaches nk or 512 potentials were written. Reads of the contained
buffer at or beyond its length model the out-of-bounds reads of the C
loop and return the default keypoint. The fuel argument only serves
termination and is chosen large enough by growStep. -/
def growLoop (trig : Trig) (inv : Mat3) (nInit nPotOld : ℕ)
    (contained : List Keypoint) :
    ℕ → ℕ → ℕ → GrowState → GrowState
  | 0, _, _, gs => gs
  | fuel + 1, j, nk, gs =>
    if j < nk ∧ gs.newPot < 512 then
      let q := contained.getD j defaultKeypoint
      let km1 := get_best_keypoint_match q (gs.initial.take nInit)
      if 2 < km1.2 then
        let km2 := get_best_keypoint_match q (gs.pot.take nPotOld)
        if km2.1 ≠ -1 ∧ km2.2 < 2 then
          let o := applyMat3 inv q.x q.y
          growLoop trig inv nInit nPotOld contained fuel (j + 1)
            (if nk ≥ 512 then 512 else nk + 1)
            { gs with
                initial := gs.initial.set gs.cursor { q with x := o.1, y := o.2 },
                cursor := (gs.cursor + 1) % 512 }
        else growLoop trig inv nInit nPotOld contained fuel (j + 1) nk gs
      else
        growLoop trig inv nInit nPotOld contained fuel (j + 1) nk
          { gs with pot := gs.pot.set gs.newPot q, newPot := gs.newPot + 1 }
    else gs

/-- The reference-growing step of mar_augment_update (lines 610-662): the
patch keypoints are re-gathered (the inverse transform is not changed by
the commit, so the same inverse is used), the growing loop runs, and the
instance receives the updated arrays; num_potential_keypoints is set to
the count of freshly written potentials at line 662, while
num_initial_keypoints is left untouched by the loop. -/
def growStep (trig : Trig) (inst : Augmentation) (frame : List Keypoint) :
    Augmentation :=
  let contained := gatherContained trig inst frame
  let gs := growLoop trig inst.transform_inverse inst.num_initial_keypoints
    inst.num_potential_keypoints contained (max contained.length 512 + 1)
    0 contained.length
    ⟨inst.initial_keypoints, inst.new_keypoint_cursor, inst.potential_keypoints, 0⟩
  { inst with
      initial_keypoints := gs.initial
      new_keypoint_cursor := gs.cursor
      potential_keypoints := gs.pot
      num_potential_keypoints := gs.newPot }

/-- The fit, validation, commit and grow stage of mar_augment_update
(lines 546-671): when at least MAR_MIN_NUM_OF_MATCHED_KEYPOINTS entries
were counted the system is solved; a skew magnitude or scale difference
strictly above 1000 (MAR_AUGMENT_MAX_SKEW and the maximum scale
difference, both 1000.0f) records the failure status and leaves the
transforms untouched; otherwise the new transform is stored with bottom
row 0, 0, 1, the status becomes MAR_ERROR_NONE and the reference set is
grown. With fewer matches the failure status is recorded directly. -/
def fitStage (trig : Trig) (solver : Solver) (inst1 : Augmentation)
    (frame : List Keypoint) (st : MatchState) : Augmentation × ℕ :=
  if 5 ≤ st.matched then
    let t := solver (designRows st)
    if 1000 < |t.m01 + t.m10| then (inst1, ERR_TOO_FEW_MATCHING)
    else if 1000 < |t.m00 - t.m11| then (inst1, ERR_TOO_FEW_MATCHING)
    else (growStep trig { inst1 with transform := mat3OfParams t } frame, ERR_NONE)
  else (inst1, ERR_TOO_FEW_MATCHING)

/-- The matching state that feeds the geometric fit: the patch-local pass
and, when it counted fewer than 5 matches, the full-frame fallback pass
run from a freshly initialized buffer against the drifted references
(mar_augment.cpp lines 442-541). -/
def finalMatchState (trig : Trig) (inst : Augmentation) (frame : List Keypoint) :
    MatchState :=
  let pr := patchPass (gatherContained trig inst frame) inst.initial_keypoints
    inst.num_initial_keypoints initMatchState
  if pr.1.matched < 5 then
    fullPass frame pr.2 inst.num_initial_keypoints initMatchState
  else pr.1

/-- Translation of the per-instance body of mar_augment_update
(mar_augment.cpp lines 417-671), for a live instance while the
augmentation is running: gather the patch keypoints, run the patch-local
matching pass (which drifts the reference descriptors), fall back to the
full frame when fewer than 5 matches were counted, then fit, validate,
commit and grow. Returns the updated instance and the status recorded in
mar_augmentation_successful. -/
def mar_augment_update_instance (trig : Trig) (solver : Solver)
    (inst : Augmentation) (frame : List Keypoint) : Augmentation × ℕ :=
  let pr := patchPass (gatherContained trig inst frame) inst.initial_keypoints
    inst.num_initial_keypoints initMatchState
  let inst1 := { inst with initial_keypoints := pr.2 }
  let st2 :=
    if pr.1.matched < 5 then
      fullPass frame pr.2 inst.num_initial_keypoints initMatchState
    else pr.1
  fitStage trig solver inst1 frame st2

/-- Count of the probes accepted by the ratio test (result index not the
no-match sentinel) against the given reference prefix.
Specification-side definition used to state the per-frame status claim,
whose text counts accepted matches; the fallback pass does not drift the
references, so the count over a fixed reference list is the number of
accepted matches of that pass. -/
def countAcceptedFull (probes refs : List Keypoint) (n : ℕ) : ℕ :=
  probes.countP fun q => (get_best_keypoint_match q (refs.take n)).1 != -1

/-- Result type for the public registry operations: a value or a
mar_error_code. -/
inductive MarResult (α : Type) where
  | ok : α → MarResult α
  | err : ℕ → MarResult α
deriving DecidableEq

/-- The process-wide state of the augmentation module read and written by
the public entry points of mar_augment.cpp: the module flag
mar_augment_initialized, the per-slot flags mar_augmentation_initialized,
the instances mar_augmentations, the per-slot status array
mar_augmentation_successful, and the counter mar_number_of_augmentations. -/
structure MarGlobalState where
  module_ready : Bool
  slot_live : Fin 32 → Bool
  augmentations : Fin 32 → Augmentation
  augmentation_successful : Fin 32 → ℕ
  num_augmentations : ℕ

/-- Translation of mar_augmentation_get_error (mar_augment.cpp lines
730-734): the function returns mar_augmentation_successful[id] directly,
without checking the module flag or the slot flag. -/
def mar_augmentation_get_error (s : MarGlobalState) (id : Fin 32) : ℕ :=
  s.augmentation_successful id

/-- Translation of mar_augment_get_transformation (mar_augment.cpp lines
687-721): after the module and slot checks the 4 by 4 column-major export
buffer is filled from the 3 by 3 transform. -/
def mar_augment_get_transformation (s : MarGlobalState) (id : Fin 32) :
    MarResult (List ℚ) :=
  if s.module_ready = false then .err ERR_NOT_INIT
  else if s.slot_live id = false then .err ERR_UNKNOWN_ID
  else
    let m := (s.augmentations id).transform
    .ok [m.m00, m.m10, 0, m.m20, m.m01, m.m11, 0, m.m21, 0, 0, 1, 0, m.m02, m.m12, 0, m.m22]

/-- Translation of mar_augment_transform_point (mar_augment.cpp lines
825-853): after the module and slot checks the forward transform is
applied to the homogeneous point. -/
def mar_augment_transform_point (s : MarGlobalState) (id : Fin 32) (x y : ℚ) :
    MarResult (ℚ × ℚ) :=
  if s.module_ready = false then .err ERR_NOT_INIT
  else if s.slot_live id = false then .err ERR_UNKNOWN_ID
  else .ok (applyMat3 (s.augmentations id).transform x y)

/-- Translation of mar_augment_untransform_point (mar_augment.cpp lines
867-895): the same with the inverse transform. -/
def mar_augment_untransform_point (s : MarGlobalState) (id : Fin 32) (x y : ℚ) :
    MarResult (ℚ × ℚ) :=
  if s.module_ready = false then .err ERR_NOT_INIT
  else if s.slot_live id = false then .err ERR_UNKNOWN_ID
  else .ok (applyMat3 (s.augmentations id).transform_inverse x y)

/-- Translation of mar_augment_free_augmentation (mar_augment.cpp lines
902-910): clear the slot flag and decrement the counter when the slot was
live. -/
def mar_augment_free_augmentation (s : MarGlobalState) (id : Fin 32) :
    MarGlobalState :=
  if s.slot_live id then
    { s with slot_live := Function.update s.slot_live id false,
             num_augmentations := s.num_augmentations - 1 }
  else s

/-- One iteration of the seeding loop of mar_augment_new_augmentation
(mar_augment.cpp lines 766-781): a frame keypoint inside the raw
(image-space) ellipse is copied into the slot at the ring cursor, its
coordinates shifted by the ellipse center and divided by the mean axis
(a + b) / 2; the count saturates at 512 and the cursor wraps modulo 512.
The fold state is the keypoint array, the cursor and the count. -/
def seedStep (trig : Trig) (region : MserRegion)
    (acc : List Keypoint × ℕ × ℕ) (kp : Keypoint) : List Keypoint × ℕ × ℕ :=
  if is_point_in_ellipse trig kp.x kp.y region.ellipse_x region.ellipse_y
      region.ellipse_a region.ellipse_b region.ellipse_angle then
    let scale := (region.ellipse_a + region.ellipse_b) / 2
    let kp2 := { kp with x := (kp.x - region.ellipse_x) / scale,
                         y := (kp.y - region.ellipse_y) / scale }
    (acc.1.set acc.2.1 kp2, (acc.2.1 + 1) % 512,
     if acc.2.2 ≥ 512 then 512 else acc.2.2 + 1)
  else acc

/-- The seeding loop of mar_augment_new_augmentation (mar_augment.cpp
lines 763-781), iterating seedStep from cursor 0 and count 0. -/
def seedFold (trig : Trig) (region : MserRegion) (kps : List Keypoint)
    (initial0 : List Keypoint) : List Keypoint × ℕ × ℕ :=
  kps.foldl (seedStep trig region) (initial0, 0, 0)

/-- Translation of mar_augment_new_augmentation (mar_augment.cpp lines
744-812): after the module check, scan for the first free slot (none free
gives the no-resources error); store the region and seed the reference
set from the keypoints of the current frame; fewer than
MAR_MINIMUM_AUGMENTATION_KEYPOINTS = 10 seeded keypoints gives the
too-few-keypoints error without marking the slot live; otherwise the slot
becomes live with the zero transform and zero inverse and its index is
returned. -/
def mar_augment_new_augmentation (trig : Trig) (s : MarGlobalState)
    (region : MserRegion) (kps : List Keypoint) :
    MarGlobalState × MarResult (Fin 32) :=
  if s.module_ready = false then (s, .err ERR_NOT_INIT)
  else
    match (List.finRange 32).find? (fun j => !s.slot_live j) with
    | none => (s, .err ERR_NO_RESOURCES)
    | some i =>
      let a0 := s.augmentations i
      let sf := seedFold trig region kps a0.initial_keypoints
      let a1 := { a0 with
                    mser := region
                    initial_keypoints := sf.1
                    new_keypoint_cursor := sf.2.1
                    num_initial_keypoints := sf.2.2 }
      if sf.2.2 < 10 then
        ({ s with augmentations := Function.update s.augmentations i a1 },
         .err ERR_TOO_FEW_KEYPOINTS)
      else
        let a2 := { a1 with transform := zeroMat3, transform_inverse := zeroMat3 }
        ({ s with
             augmentations := Function.update s.augmentations i a2,
             slot_live := Function.update s.slot_live i true,
             num_augmentations := s.num_augmentations + 1 },
         .ok i)

/-- Descriptor with value v at component c and 0 elsewhere, used to build
the concrete scenario keypoints. -/
def spike (c : Fin 128) (v : ℚ) : Fin 128 → ℚ := fun i => if i = c then v else 0

/-- Trig oracle used by the concrete scenarios: sine constantly 0 and
cosine constantly 1. It is odd, even and satisfies the Pythagorean
identity, and every scenario below only evaluates it at angle 0. -/
def trigW : Trig := ⟨fun _ => 0, fun _ => 1⟩

/-- Solver instance used by the concrete scenarios: it returns the
identity affine parameters, which satisfy both validation bounds. -/
def solverId : Solver := fun _ => ⟨1, 0, 0, 1, 0, 0⟩

/-- Reference keypoint for the status counterexample: the all-zero
descriptor. -/
def c1ref0 : Keypoint := defaultKeypoint

/-- Second reference keypoint for the status counterexample: descriptor
100 at component 0, far from every probe. -/
def c1ref1 : Keypoint := { defaultKeypoint with descriptor := spike 0 100 }

/-- Probe keypoint for the status counterexample: descriptor 3 at
component 40, so its distance to c1ref0 is exactly 3, accepted by the
ratio test (3 * 3.5 <= 103) but at or above the difference threshold 2. -/
def c1probe : Keypoint :=
  { x := 5, y := 6, radius := 0, angle := 0, descriptor := spike 40 3 }

/-- Frame for the status counterexample: five copies of the probe. -/
def c1frame : List Keypoint := List.replicate 5 c1probe

/-- Instance for the status counterexample: zero transforms (as after
creation), an ellipse containing the origin so that the zero inverse maps
every keypoint into the patch, and the two references. -/
def c1inst : Augmentation :=
  { mser := ⟨0, 0, 1, 1, 0⟩
    transform := zeroMat3
    transform_inverse := zeroMat3
    initial_keypoints := [c1ref0, c1ref1]
    num_initial_keypoints := 2
    new_keypoint_cursor := 2
    potential_keypoints := []
    num_potential_keypoints := 0 }

/-- Reference keypoints of the recovery scenario: descriptor 1 at
component j. -/
def okRef (j : Fin 128) : Keypoint :=
  { x := (j.val : ℚ), y := (j.val : ℚ), radius := 0, angle := 0,
    descriptor := spike j 1 }

/-- Instance of the recovery scenario: the patch ellipse sits at
(100, 100) with axes 20, the transforms are zero as after creation, and
the five one-hot references are seeded. The zero inverse maps every frame
keypoint to the origin, outside the ellipse, so the patch gather is empty. -/
def okInst : Augmentation :=
  { mser := ⟨100, 100, 20, 20, 0⟩
    transform := zeroMat3
    transform_inverse := zeroMat3
    initial_keypoints := [okRef 0, okRef 1, okRef 2, okRef 3, okRef 4]
    num_initial_keypoints := 5
    new_keypoint_cursor := 5
    potential_keypoints := []
    num_potential_keypoints := 0 }

/-- Frame keypoints of the recovery scenario: probe j nearly matches
reference 0, with descriptor value 1 + (5 - j) / 100 at component 0, so
the best distances (5 - j) / 100 are strictly decreasing with j, all well
below the threshold 2, and all accepted by the ratio test against the
second-best distance 2 + (5 - j) / 100. -/
def okProbe (j : ℕ) : Keypoint :=
  { x := 30 + (j : ℚ), y := 40, radius := 0, angle := 0,
    descriptor := spike 0 (1 + (5 - (j : ℚ)) / 100) }

/-- Frame of the recovery scenario. -/
def okFrame : List Keypoint := [okProbe 0, okProbe 1, okProbe 2, okProbe 3, okProbe 4]

/-- The previous-frame potential keypoint of the growing scenario,
identical in descriptor to the candidate so that the candidate is
promoted. -/
def c5pot : Keypoint :=
  { x := 7, y := 8, radius := 0, angle := 0, descriptor := spike 40 10 }

/-- The candidate keypoint of the growing scenario: distance 10 to the
single reference (no strong existing match) and distance 0 to the
previous potential. -/
def c5cand : Keypoint :=
  { x := 3, y := 4, radius := 0, angle := 0, descriptor := spike 40 10 }

/-- Padding keypoint occupying the ring slot that the promotion
overwrites, marked by x = 55. -/
def c5pad : Keypoint := { defaultKeypoint with x := 55 }

/-- Instance of the growing scenario: one confirmed reference with the
all-zero descriptor, the cursor at slot 1 (occupied by the pad), one
previous potential, zero transforms, and an ellipse containing the
origin so that the zero inverse puts the whole frame in the patch. -/
def c5inst : Augmentation :=
  { mser := ⟨0, 0, 1, 1, 0⟩
    transform := zeroMat3
    transform_inverse := zeroMat3
    initial_keypoints := [defaultKeypoint, c5pad]
    num_initial_keypoints := 1
    new_keypoint_cursor := 1
    potential_keypoints := [c5pot]
    num_potential_keypoints := 1 }

/-- Frame of the growing scenario: the single candidate. -/
def c5frame : List Keypoint := [c5cand]

/-- Reference keypoint of the descriptor-overwrite scenario: descriptor 1
at component 32, the first component the 128-byte memcpy does not reach. -/
def c4ref : Keypoint := { defaultKeypoint with descriptor := spike 32 1 }

/-- Probe keypoint of the descriptor-overwrite scenario: descriptor 7 at
component 5, at distance 8 from the reference, accepted by the ratio test
against the singleton reference list. -/
def c4probe : Keypoint :=
  { x := 9, y := 9, radius := 0, angle := 0, descriptor := spike 5 7 }

/-- Probe keypoints of the buffer-overflow scenario: probe j has
descriptor (300 - j) / 200 at component 0, so the distances to the
all-zero reference are strictly decreasing with j and all below the
threshold 2, and every probe is accepted against the singleton reference
list. -/
def c3probe (j : ℕ) : Keypoint :=
  { x := (j : ℚ), y := 0, radius := 0, angle := 0,
    descriptor := spike 0 (((300 : ℚ) - (j : ℚ)) / 200) }

/-- Frame of the buffer-overflow scenario: 257 accepted probes. -/
def c3frame : List Keypoint := (List.range 257).map c3probe

/-- An augmentation slot as it sits in the static C arrays before any
registration: zeroed scalars and 512 zeroed keypoint slots. -/
def emptyAug : Augmentation :=
  { mser := ⟨0, 0, 0, 0, 0⟩
    transform := zeroMat3
    transform_inverse := zeroMat3
    initial_keypoints := List.replicate 512 defaultKeypoint
    num_initial_keypoints := 0
    new_keypoint_cursor := 0
    potential_keypoints := List.replicate 512 defaultKeypoint
    num_potential_keypoints := 0 }

/-- Module state right after initialization: module flag set, every slot
free, every per-slot status MAR_ERROR_NONE. -/
def freshState : MarGlobalState :=
  { module_ready := true
    slot_live := fun _ => false
    augmentations := fun _ => emptyAug
    augmentation_successful := fun _ => ERR_NONE
    num_augmentations := 0 }

/-- Registration region of the registration scenario: the unit circle at
the origin. -/
def region8 : MserRegion := ⟨0, 0, 1, 1, 0⟩

/-- Ten keypoints at the origin, all inside the registration region. -/
def kps10 : List Keypoint := List.replicate 10 defaultKeypoint

/-- Nine keypoints at the origin. -/
def kps9 : List Keypoint := List.replicate 9 defaultKeypoint

theorem mar_lt_one_iff_of_eq {p q : ℚ} (h : p = q) : p < 1 ↔ q < 1 := by rw [h]

/-- Claim C6: for every point p and every ellipse (cx, cy, a, b, theta),
point_in_ellipse translates p by -(cx, cy), rotates the result by
-sign(a - b) * theta, and returns true exactly when
rx ^ 2 / (2 a) ^ 2 + ry ^ 2 / (2 b) ^ 2 < 1 (strict inequality). Rotation
is taken in the image-plane (y down) convention fixed in
point_in_ellipse_claim; the trig oracle is assumed odd in sine, even in
cosine and normalized, as the real sine and cosine are. -/
theorem C6_point_in_ellipse (trig : Trig)
    (hodd : ∀ t, trig.sin (-t) = -trig.sin t)
    (heven : ∀ t, trig.cos (-t) = trig.cos t)
    (hpyth : ∀ t, trig.sin t ^ 2 + trig.cos t ^ 2 = 1)
    (px py ex ey a b ang : ℚ) :
    is_point_in_ellipse trig px py ex ey a b ang =
      point_in_ellipse_claim trig px py ex ey a b ang := by
  simp only [is_point_in_ellipse, point_in_ellipse_claim, decide_eq_decide]
  rcases lt_trichotomy a b with hab | hab | hab
  · have hq : qsign (a - b) = -1 := by
      unfold qsign
      rw [if_neg (by linarith), if_pos (by linarith)]
    refine mar_lt_one_iff_of_eq ?_
    rw [if_neg (not_lt.mpr hab.le), hq,
      show ang * (-1 : ℚ) = -ang from by ring,
      show (-(-1 : ℚ)) * ang = ang from by ring, hodd ang, heven ang]
    ring
  · subst hab
    have hq : qsign (a - a) = 0 := by
      unfold qsign
      rw [sub_self, if_neg (lt_irrefl 0), if_neg (lt_irrefl 0)]
    refine mar_lt_one_iff_of_eq ?_
    rw [if_neg (lt_irrefl a), hq,
      show ang * (-1 : ℚ) = -ang from by ring,
      show (-(0 : ℚ)) * ang = 0 from by ring, hodd ang, heven ang]
    linear_combination
      (((px - ex) * (px - ex) + (py - ey) * (py - ey)) / (a * a * 4)) * hpyth ang
      - (((px - ex) * (px - ex) + (py - ey) * (py - ey)) / (a * a * 4)) * hpyth 0
  · have hq : qsign (a - b) = 1 := by
      unfold qsign
      rw [if_pos (by linarith)]
    refine mar_lt_one_iff_of_eq ?_
    rw [if_pos hab, hq,
      show ang * (1 : ℚ) = ang from by ring,
      show (-(1 : ℚ)) * ang = -ang from by ring, hodd ang, heven ang]
    ring

/-- Witness for claim C6 at a concrete trig oracle and concrete inputs. -/
theorem C6_point_in_ellipse_witness :
    is_point_in_ellipse trigW 3 4 10 20 5 2 7 =
      point_in_ellipse_claim trigW 3 4 10 20 5 2 7 :=
  C6_point_in_ellipse trigW (fun t => by simp [trigW])
    (fun t => by simp [trigW]) (fun t => by norm_num [trigW]) 3 4 10 20 5 2 7

/-- Counterexample to claim C9 as stated: with the module initialized and
slot 0 empty (never created), mar_augmentation_get_error does not fail
with the unknown-id error; it returns the stored per-slot status, here
MAR_ERROR_NONE, because the function (mar_augment.cpp lines 730-734)
performs no slot check. -/
theorem C9_counterexample :
    mar_augmentation_get_error freshState 0 ≠ ERR_UNKNOWN_ID := by decide

/-- Claim C9 as amended: on an empty slot, with the module initialized,
get_transformation, transform_point and untransform_point fail with the
unknown-id error (and, being pure observers, change no state), while
get_error performs no slot check and returns the stored per-slot status. -/
theorem C9_amended (s : MarGlobalState) (id : Fin 32) (x y : ℚ)
    (h1 : s.module_ready = true) (h2 : s.slot_live id = false) :
    mar_augment_get_transformation s id = .err ERR_UNKNOWN_ID
    ∧ mar_augment_transform_point s id x y = .err ERR_UNKNOWN_ID
    ∧ mar_augment_untransform_point s id x y = .err ERR_UNKNOWN_ID
    ∧ mar_augmentation_get_error s id = s.augmentation_successful id := by
  refine ⟨?_, ?_, ?_, rfl⟩ <;>
    simp [mar_augment_get_transformation, mar_augment_transform_point,
      mar_augment_untransform_point, h1, h2]

/-- Witness for the amended claim C9 at a concrete state. -/
theorem C9_amended_witness :
    mar_augment_get_transformation freshState 0 = .err ERR_UNKNOWN_ID
    ∧ mar_augment_transform_point freshState 0 1 2 = .err ERR_UNKNOWN_ID
    ∧ mar_augment_untransform_point freshState 0 1 2 = .err ERR_UNKNOWN_ID
    ∧ mar_augmentation_get_error freshState 0 =
        freshState.augmentation_successful 0 :=
  C9_amended freshState 0 1 2 rfl rfl

theorem spike_zero (c : Fin 128) : spike c 0 = fun _ => 0 := by
  funext i
  simp [spike]

theorem dist_spike {k1 k2 : Keypoint} {c1 c2 : Fin 128} {v w : ℚ}
    (h1 : k1.descriptor = spike c1 v) (h2 : k2.descriptor = spike c2 w) :
    get_keypoint_difference k1 k2 = if c1 = c2 then |v - w| else |v| + |w| := by
  unfold get_keypoint_difference
  rw [h1, h2]
  by_cases h : c1 = c2
  · subst h
    rw [if_pos rfl]
    have he : ∀ i : Fin 128, |spike c1 v i - spike c1 w i| =
        if i = c1 then |v - w| else 0 := by
      intro i
      by_cases hi : i = c1 <;> simp [spike, hi]
    rw [Finset.sum_congr rfl fun i _ => he i]
    simp
  · rw [if_neg h]
    have he : ∀ i : Fin 128, |spike c1 v i - spike c2 w i| =
        (if i = c1 then |v| else 0) + (if i = c2 then |w| else 0) := by
      intro i
      by_cases hi1 : i = c1
      · subst hi1
        simp [spike, h]
      · by_cases hi2 : i = c2
        · subst hi2
          simp [spike, hi1]
        · simp [spike, hi1, hi2]
    rw [Finset.sum_congr rfl fun i _ => he i, Finset.sum_add_distrib]
    simp

theorem applyMat3_zero (x y : ℚ) : applyMat3 zeroMat3 x y = (0, 0) := by
  simp [applyMat3, zeroMat3]

theorem foldl_fixed {α β : Type} (f : α → β → α) (b : α) (l : List β)
    (h : ∀ x ∈ l, f b x = b) : l.foldl f b = b := by
  induction l with
  | nil => rfl
  | cons a l ih =>
    rw [List.foldl_cons, h a (by simp)]
    exact ih fun x hx => h x (by simp [hx])

theorem countP_replicate {α : Type} (p : α → Bool) (a : α) (n : ℕ) :
    (List.replicate n a).countP p = if p a then n else 0 := by
  induction n with
  | zero => simp
  | succ n ih =>
    rw [List.replicate_succ, List.countP_cons, ih]
    by_cases h : p a <;> simp [h]

theorem mem_bufInsert (e : MatchEntry) (l : List MatchEntry) :
    ∀ x ∈ bufInsert e l, x = e ∨ x ∈ l := by
  induction l with
  | nil =>
    intro x hx
    simp [bufInsert] at hx
  | cons f rest ih =>
    intro x hx
    unfold bufInsert at hx
    split at hx
    · rcases List.mem_cons.mp hx with h | h
      · exact Or.inl h
      · exact Or.inr ((List.dropLast_sublist _).subset h)
    · rcases List.mem_cons.mp hx with h | h
      · exact Or.inr (by simp [h])
      · rcases ih x h with h2 | h2
        · exact Or.inl h2
        · exact Or.inr (by simp [h2])

theorem matchStateAdd_of_lt (st : MatchState) (rx ry px py d : ℚ)
    (h2 : d < 2) (hb : ∀ e ∈ st.buf, d < e.d) :
    matchStateAdd st rx ry px py d =
      ⟨bufInsert ⟨rx, ry, px, py, d⟩ st.buf, st.matched + 1⟩ := by
  unfold matchStateAdd
  rw [if_pos]
  by_cases hlen : 255 < st.buf.length
  · refine hb _ ?_
    rw [List.getD_eq_getElem _ _ hlen]
    exact List.getElem_mem _
  · rw [List.getD_eq_default _ _ (by omega)]
    exact h2

theorem best_single (q r : Keypoint) (d : ℚ)
    (hd : get_keypoint_difference q r = d) (h1 : d < FLT_MAX)
    (h2 : d * (7 / 2) ≤ FLT_MAX) :
    get_best_keypoint_match q [r] = (0, d) := by
  unfold get_best_keypoint_match bm_step
  simp only [List.foldl_cons, List.foldl_nil, hd]
  rw [if_pos h1]
  simp only []
  rw [if_pos h2]
  norm_num

theorem fullPass_matched (refs : List Keypoint) (n : ℕ) (probes : List Keypoint) :
    ∀ ms : MatchState,
      (∀ q ∈ probes, (get_best_keypoint_match q (refs.take n)).1 ≠ -1) →
      ((probes.map fun q => (get_best_keypoint_match q (refs.take n)).2).Sorted (· > ·)) →
      (∀ q ∈ probes, (get_best_keypoint_match q (refs.take n)).2 < 2) →
      (∀ e ∈ ms.buf, ∀ q ∈ probes, (get_best_keypoint_match q (refs.take n)).2 < e.d) →
      (fullPass probes refs n ms).matched = ms.matched + probes.length := by
  induction probes with
  | nil =>
    intro ms _ _ _ _
    simp [fullPass]
  | cons q rest ih =>
    intro ms hacc hsort hlt2 hbuf
    have hq : (get_best_keypoint_match q (refs.take n)).1 ≠ -1 :=
      hacc q (List.mem_cons_self _ _)
    have hd2 : (get_best_keypoint_match q (refs.take n)).2 < 2 :=
      hlt2 q (List.mem_cons_self _ _)
    have hbd : ∀ e ∈ ms.buf, (get_best_keypoint_match q (refs.take n)).2 < e.d :=
      fun e he => hbuf e he q (List.mem_cons_self _ _)
    have hstep : fullPass (q :: rest) refs n ms =
        fullPass rest refs n
          (matchStateAdd ms
            (refs.getD (get_best_keypoint_match q (refs.take n)).1.toNat defaultKeypoint).x
            (refs.getD (get_best_keypoint_match q (refs.take n)).1.toNat defaultKeypoint).y
            q.x q.y (get_best_keypoint_match q (refs.take n)).2) := by
      simp only [fullPass, List.foldl_cons]
      rw [if_pos hq]
    rw [hstep, matchStateAdd_of_lt _ _ _ _ _ _ hd2 hbd]
    simp only [List.map_cons, List.sorted_cons] at hsort
    rw [ih ⟨bufInsert ⟨_, _, q.x, q.y, (get_best_keypoint_match q (refs.take n)).2⟩ ms.buf,
          ms.matched + 1⟩
        (fun x hx => hacc x (List.mem_cons_of_mem _ hx)) hsort.2
        (fun x hx => hlt2 x (List.mem_cons_of_mem _ hx)) ?_]
    · simp only [List.length_cons]
      omega
    · intro e he x hx
      rcases mem_bufInsert _ _ e he with rfl | hmem
      · exact hsort.1 _ (List.mem_map_of_mem _ hx)
      · exact hbuf e hmem x (List.mem_cons_of_mem _ hx)

theorem flt_max_big : (6 : ℚ) < FLT_MAX := by norm_num [FLT_MAX]

theorem c3_dist (j : ℕ) :
    get_keypoint_difference (c3probe j) defaultKeypoint = |(300 - (j : ℚ)) / 200| := by
  rw [dist_spike rfl ((spike_zero 0).symm), if_pos rfl, sub_zero]

theorem c3_dist_of_le (j : ℕ) (hj : j ≤ 256) :
    get_keypoint_difference (c3probe j) defaultKeypoint = (300 - (j : ℚ)) / 200 := by
  have hjq : (j : ℚ) ≤ 256 := by exact_mod_cast hj
  rw [c3_dist]
  exact abs_of_pos (div_pos (by linarith) (by norm_num))

theorem c3_eps_bounds (j : ℕ) (hj : j ≤ 256) :
    0 < (300 - (j : ℚ)) / 200 ∧ (300 - (j : ℚ)) / 200 ≤ 3 / 2 := by
  have hjq : (j : ℚ) ≤ 256 := by exact_mod_cast hj
  have hj0 : (0 : ℚ) ≤ (j : ℚ) := Nat.cast_nonneg j
  constructor
  · exact div_pos (by linarith) (by norm_num)
  · rw [div_le_iff₀ (by norm_num : (0 : ℚ) < 200)]
    linarith

theorem c3_best (j : ℕ) (hj : j ≤ 256) :
    get_best_keypoint_match (c3probe j) ([defaultKeypoint].take 1) =
      (0, (300 - (j : ℚ)) / 200) := by
  obtain ⟨hpos, hle⟩ := c3_eps_bounds j hj
  have h6 := flt_max_big
  exact best_single _ _ _ (c3_dist_of_le j hj) (by linarith) (by linarith)

theorem c3_map_dists :
    (c3frame.map fun q =>
        (get_best_keypoint_match q ([defaultKeypoint].take 1)).2) =
      (List.range 257).map fun (j : ℕ) => (300 - (j : ℚ)) / 200 := by
  unfold c3frame
  rw [List.map_map]
  refine List.map_congr_left fun j hj => ?_
  have hj : j ≤ 256 := by
    have := List.mem_range.mp hj
    omega
  simp only [Function.comp_apply, c3_best j hj]

/-- Claim C3, evidence of the code bug: at the concrete frame of 257
accepted probes, the fallback matching pass counts 257 matches, and the
design-matrix build loop at mar_augment.cpp lines 554-573 therefore reads
the 256-slot arrays x, y, u, v at index 256, past their end. -/
theorem C3_design_overflow :
    (fullPass c3frame [defaultKeypoint] 1 initMatchState).matched = 257
    ∧ 256 ∈ designIndices
        (fullPass c3frame [defaultKeypoint] 1 initMatchState).matched := by
  have hcount : (fullPass c3frame [defaultKeypoint] 1 initMatchState).matched =
      initMatchState.matched + c3frame.length := by
    refine fullPass_matched [defaultKeypoint] 1 c3frame initMatchState ?_ ?_ ?_ ?_
    · intro q hq
      obtain ⟨j, hj, rfl⟩ := List.mem_map.mp hq
      have hj : j ≤ 256 := by
        have := List.mem_range.mp hj
        omega
      rw [c3_best j hj]
      simp
    · rw [c3_map_dists, List.Sorted, List.pairwise_map]
      refine (List.pairwise_lt_range 257).imp ?_
      intro a b hab
      have hab2 : (a : ℚ) < (b : ℚ) := by exact_mod_cast hab
      rw [gt_iff_lt, div_lt_div_iff_of_pos_right (by norm_num : (0 : ℚ) < 200)]
      linarith
    · intro q hq
      obtain ⟨j, hj, rfl⟩ := List.mem_map.mp hq
      have hj : j ≤ 256 := by
        have := List.mem_range.mp hj
        omega
      rw [c3_best j hj]
      have hj0 : (0 : ℚ) ≤ (j : ℚ) := Nat.cast_nonneg j
      rw [div_lt_iff₀ (by norm_num : (0 : ℚ) < 200)]
      linarith
    · intro e he q hq
      have he2 : e = initEntry := List.eq_of_mem_replicate he
      subst he2
      obtain ⟨j, hj, rfl⟩ := List.mem_map.mp hq
      have hj : j ≤ 256 := by
        have := List.mem_range.mp hj
        omega
      rw [c3_best j hj]
      have hj0 : (0 : ℚ) ≤ (j : ℚ) := Nat.cast_nonneg j
      show (300 - (j : ℚ)) / 200 < 2
      rw [div_lt_iff₀ (by norm_num : (0 : ℚ) < 200)]
      linarith
  have hlen : c3frame.length = 257 := by
    unfold c3frame
    rw [List.length_map, List.length_range]
  have h257 : (fullPass c3frame [defaultKeypoint] 1 initMatchState).matched = 257 := by
    rw [hcount, hlen]
    rfl
  refine ⟨h257, ?_⟩
  rw [h257]
  unfold designIndices
  exact List.mem_range.mpr (by omega)

theorem flt_max_big30 : (1000 : ℚ) < FLT_MAX := by norm_num [FLT_MAX]

theorem c4_best :
    get_best_keypoint_match c4probe [c4ref] = (0, 8) := by
  have hd : get_keypoint_difference c4probe c4ref = 8 := by
    rw [dist_spike rfl rfl, if_neg (by decide)]
    norm_num
  have h30 := flt_max_big30
  exact best_single _ _ _ hd (by linarith) (by linarith)

/-- Claim C4, evidence of the code bug: on an accepted match the memcpy
at mar_augment.cpp line 488 copies 128 bytes, which is 32 floats, not the
whole 128-float descriptor. At the concrete accepted match below,
descriptor component 5 of the stored reference is replaced by the probe
value 7, while component 32 keeps the old reference value 1 although the
probe holds 0 there. -/
theorem C4_partial_overwrite :
    (((patchPass [c4probe] [c4ref] 1 initMatchState).2.getD 0
        defaultKeypoint).descriptor (5 : Fin 128) = 7)
    ∧ (c4ref.descriptor (5 : Fin 128) = 0)
    ∧ (((patchPass [c4probe] [c4ref] 1 initMatchState).2.getD 0
        defaultKeypoint).descriptor (32 : Fin 128) = 1)
    ∧ (c4probe.descriptor (32 : Fin 128) = 0) := by
  have hp : (patchPass [c4probe] [c4ref] 1 initMatchState).2 =
      [overwrite_descriptor c4ref c4probe] := by
    unfold patchPass patchStep
    simp only [List.foldl_cons, List.foldl_nil, List.take, c4_best]
    rw [if_pos (by norm_num)]
    rfl
  rw [hp]
  refine ⟨by decide, by decide, by decide, by decide⟩

theorem origin_in_unit : is_point_in_ellipse trigW 0 0 0 0 1 1 0 = true := by
  norm_num [is_point_in_ellipse, trigW]

theorem c5_gather : gatherContained trigW c5inst c5frame = c5frame := by
  refine List.filter_eq_self.mpr ?_
  intro kp hkp
  have hk : kp = c5cand := by simpa [c5frame] using hkp
  subst hk
  show is_point_in_ellipse trigW
      (applyMat3 c5inst.transform_inverse c5cand.x c5cand.y).1
      (applyMat3 c5inst.transform_inverse c5cand.x c5cand.y).2
      c5inst.mser.ellipse_x c5inst.mser.ellipse_y c5inst.mser.ellipse_a
      c5inst.mser.ellipse_b c5inst.mser.ellipse_angle = true
  rw [show c5inst.transform_inverse = zeroMat3 from rfl, applyMat3_zero]
  exact origin_in_unit

theorem c5_best_init : get_best_keypoint_match c5cand [defaultKeypoint] = (0, 10) := by
  have hd : get_keypoint_difference c5cand defaultKeypoint = 10 := by
    rw [dist_spike rfl ((spike_zero 40).symm), if_pos rfl]
    norm_num
  have h30 := flt_max_big30
  exact best_single _ _ _ hd (by linarith) (by linarith)

theorem c5_best_pot : get_best_keypoint_match c5cand [c5pot] = (0, 0) := by
  have hd : get_keypoint_difference c5cand c5pot = 0 := by
    rw [dist_spike rfl rfl, if_pos rfl]
    norm_num
  have h30 := flt_max_big30
  exact best_single _ _ _ hd (by linarith) (by linarith)

theorem best_default_default :
    get_best_keypoint_match defaultKeypoint [defaultKeypoint] = (0, 0) := by
  have hd : get_keypoint_difference defaultKeypoint defaultKeypoint = 0 := by
    rw [dist_spike ((spike_zero 0).symm) ((spike_zero 0).symm), if_pos rfl]
    norm_num
  have h30 := flt_max_big30
  exact best_single _ _ _ hd (by linarith) (by linarith)

theorem c5_loop (fuel : ℕ) :
    growLoop trigW zeroMat3 1 1 [c5cand] (fuel + 3) 0 1
        ⟨[defaultKeypoint, c5pad], 1, [c5pot], 0⟩ =
      ⟨[defaultKeypoint, { c5cand with x := 0, y := 0 }], 2, [defaultKeypoint], 1⟩ := by
  norm_num [growLoop, c5_best_init, c5_best_pot, best_default_default, applyMat3_zero]

theorem c5_grow : growStep trigW c5inst c5frame =
    { c5inst with
        initial_keypoints := [defaultKeypoint, { c5cand with x := 0, y := 0 }]
        new_keypoint_cursor := 2
        potential_keypoints := [defaultKeypoint]
        num_potential_keypoints := 1 } := by
  unfold growStep
  rw [c5_gather]
  show ({ c5inst with
      initial_keypoints := (growLoop trigW zeroMat3 1 1 [c5cand] (510 + 3) 0 1
        ⟨[defaultKeypoint, c5pad], 1, [c5pot], 0⟩).initial
      new_keypoint_cursor := (growLoop trigW zeroMat3 1 1 [c5cand] (510 + 3) 0 1
        ⟨[defaultKeypoint, c5pad], 1, [c5pot], 0⟩).cursor
      potential_keypoints := (growLoop trigW zeroMat3 1 1 [c5cand] (510 + 3) 0 1
        ⟨[defaultKeypoint, c5pad], 1, [c5pot], 0⟩).pot
      num_potential_keypoints := (growLoop trigW zeroMat3 1 1 [c5cand] (510 + 3) 0 1
        ⟨[defaultKeypoint, c5pad], 1, [c5pot], 0⟩).newPot } : Augmentation) = _
  rw [c5_loop 510]

/-- Claim C5, evidence of the code bug: in the concrete growing scenario a
candidate is promoted (the ring slot at the cursor, previously holding the
pad keypoint with x = 55, is overwritten with the candidate untransformed
to the origin, and the cursor advances from 1 to 2), yet the confirmed
reference count num_initial_keypoints stays at 1: the increment at
mar_augment.cpp line 653 goes to the local loop bound num_keypoints
instead of num_initial_keypoints. -/
theorem C5_count_not_incremented :
    ((growStep trigW c5inst c5frame).num_initial_keypoints =
      c5inst.num_initial_keypoints)
    ∧ ((growStep trigW c5inst c5frame).new_keypoint_cursor = 2)
    ∧ (((growStep trigW c5inst c5frame).initial_keypoints.getD 1
        defaultKeypoint).x = 0)
    ∧ ((c5inst.initial_keypoints.getD 1 defaultKeypoint).x = 55) := by
  rw [c5_grow]
  exact ⟨rfl, rfl, rfl, rfl⟩

/-- Claim C10, evidence of the code bug: in the same scenario the gathered
contained-keypoints buffer holds exactly one keypoint (with x = 3), and it
is promoted, not appended to the potentials; yet the grow loop writes one
potential, and the written entry is the out-of-bounds default read at
index 1, one past the end of the gathered buffer: the promotion at line
653 increased the loop bound num_keypoints beyond the number of copied
keypoints. -/
theorem C10_loop_reads_past_buffer :
    ((gatherContained trigW c5inst c5frame).length = 1)
    ∧ ((growStep trigW c5inst c5frame).num_potential_keypoints = 1)
    ∧ (((growStep trigW c5inst c5frame).potential_keypoints.getD 0
        defaultKeypoint).x = 0)
    ∧ ((c5frame.getD 0 defaultKeypoint).x = 3) := by
  rw [c5_gather, c5_grow]
  exact ⟨rfl, rfl, rfl, rfl⟩

theorem c1_dist0 : get_keypoint_difference c1probe c1ref0 = 3 := by
  rw [dist_spike rfl ((spike_zero 40).symm), if_pos rfl]
  norm_num

theorem c1_dist1 : get_keypoint_difference c1probe c1ref1 = 103 := by
  rw [dist_spike rfl rfl, if_neg (by decide)]
  norm_num

theorem c1_best : get_best_keypoint_match c1probe [c1ref0, c1ref1] = (0, 3) := by
  have hM := flt_max_big30
  unfold get_best_keypoint_match bm_step
  simp only [List.foldl_cons, List.foldl_nil, c1_dist0, c1_dist1]
  rw [if_pos (by linarith : (3 : ℚ) < FLT_MAX)]
  simp only []
  rw [if_neg (by norm_num : ¬(103 : ℚ) < 3),
    if_pos (by linarith : (103 : ℚ) < FLT_MAX)]
  simp only []
  rw [if_pos (by linarith : (3 : ℚ) * (7 / 2) ≤ 103)]
  norm_num

theorem matchStateAdd_of_ge (st : MatchState) (rx ry px py d : ℚ)
    (h : ¬d < (st.buf.getD 255 initEntry).d) :
    matchStateAdd st rx ry px py d = st := by
  unfold matchStateAdd
  rw [if_neg h]

theorem c1_gather : gatherContained trigW c1inst c1frame = c1frame := by
  refine List.filter_eq_self.mpr ?_
  intro kp hkp
  have hk : kp = c1probe := by simpa [c1frame] using hkp
  subst hk
  show is_point_in_ellipse trigW
      (applyMat3 c1inst.transform_inverse c1probe.x c1probe.y).1
      (applyMat3 c1inst.transform_inverse c1probe.x c1probe.y).2
      c1inst.mser.ellipse_x c1inst.mser.ellipse_y c1inst.mser.ellipse_a
      c1inst.mser.ellipse_b c1inst.mser.ellipse_angle = true
  rw [show c1inst.transform_inverse = zeroMat3 from rfl, applyMat3_zero]
  exact origin_in_unit

theorem c1_drift : overwrite_descriptor c1ref0 c1probe = c1ref0 := by
  unfold overwrite_descriptor
  have hdesc : (fun i : Fin 128 =>
      if (i : ℕ) < 32 then c1probe.descriptor i else c1ref0.descriptor i) =
      c1ref0.descriptor := by
    funext i
    by_cases h : (i : ℕ) < 32
    · rw [if_pos h]
      have hne : i ≠ (40 : Fin 128) := by
        intro he
        rw [he] at h
        exact absurd h (by decide)
      show spike 40 3 i = _
      simp [spike, hne]
      rfl
    · rw [if_neg h]
  rw [hdesc]

theorem c1_patch_step :
    patchStep 2 (initMatchState, [c1ref0, c1ref1]) c1probe =
      (initMatchState, [c1ref0, c1ref1]) := by
  unfold patchStep
  rw [show List.take 2 [c1ref0, c1ref1] = [c1ref0, c1ref1] from rfl, c1_best]
  rw [if_pos (by norm_num : ((0 : ℤ), (3 : ℚ)).1 ≠ -1)]
  refine Prod.ext ?_ ?_
  · show matchStateAdd initMatchState c1ref0.x c1ref0.y c1probe.x c1probe.y 3 =
      initMatchState
    refine matchStateAdd_of_ge _ _ _ _ _ _ ?_
    show ¬(3 : ℚ) < 2
    norm_num
  · show [c1ref0, c1ref1].set 0 (overwrite_descriptor c1ref0 c1probe) =
      [c1ref0, c1ref1]
    rw [c1_drift]
    rfl

theorem c1_patch :
    patchPass c1frame [c1ref0, c1ref1] 2 initMatchState =
      (initMatchState, [c1ref0, c1ref1]) := by
  unfold patchPass
  refine foldl_fixed _ _ _ ?_
  intro x hx
  have hk : x = c1probe := by simpa [c1frame] using hx
  subst hk
  exact c1_patch_step

theorem c1_full :
    fullPass c1frame [c1ref0, c1ref1] 2 initMatchState = initMatchState := by
  unfold fullPass
  refine foldl_fixed _ _ _ ?_
  intro x hx
  have hk : x = c1probe := by simpa [c1frame] using hx
  subst hk
  simp only [show List.take 2 [c1ref0, c1ref1] = [c1ref0, c1ref1] from rfl, c1_best]
  rw [if_pos (by norm_num : ((0 : ℤ), (3 : ℚ)).1 ≠ -1)]
  show matchStateAdd initMatchState c1ref0.x c1ref0.y c1probe.x c1probe.y 3 =
    initMatchState
  refine matchStateAdd_of_ge _ _ _ _ _ _ ?_
  show ¬(3 : ℚ) < 2
  norm_num

theorem c1_count :
    countAcceptedFull c1frame [c1ref0, c1ref1] c1inst.num_initial_keypoints = 5 := by
  unfold countAcceptedFull
  rw [show c1frame = List.replicate 5 c1probe from rfl, countP_replicate]
  rw [if_pos (by
    rw [show List.take c1inst.num_initial_keypoints [c1ref0, c1ref1] =
      [c1ref0, c1ref1] from rfl, c1_best]
    decide)]

theorem c1_final_state :
    finalMatchState trigW c1inst c1frame = initMatchState := by
  unfold finalMatchState
  rw [c1_gather]
  rw [show patchPass c1frame c1inst.initial_keypoints c1inst.num_initial_keypoints
      initMatchState = (initMatchState, [c1ref0, c1ref1]) from c1_patch]
  show fullPass c1frame [c1ref0, c1ref1] 2 initMatchState = initMatchState
  exact c1_full

theorem c1_status :
    (mar_augment_update_instance trigW solverId c1inst c1frame).2 =
      ERR_TOO_FEW_MATCHING := by
  unfold mar_augment_update_instance
  rw [c1_gather]
  rw [show patchPass c1frame c1inst.initial_keypoints c1inst.num_initial_keypoints
      initMatchState = (initMatchState, [c1ref0, c1ref1]) from c1_patch]
  show (fitStage trigW solverId
      { c1inst with initial_keypoints := [c1ref0, c1ref1] } c1frame
      (fullPass c1frame [c1ref0, c1ref1] 2 initMatchState)).2 = ERR_TOO_FEW_MATCHING
  rw [c1_full]
  rfl

/-- Counterexample to claim C1 as stated: at the concrete input below the
fallback pass accepts 5 matches by the ratio test, all at descriptor
distance 3, and the (never invoked) fitted parameters are the identity,
which violates no validation bound, yet the recorded status is
InsufficientMatches: the differences buffer is initialized to
MAR_MAX_KEYPOINT_DIFFERENCE = 2 (mar_augment.cpp lines 444-447 and
496-500), so accepted matches at distance 2 or more are never counted,
and the counter that the status test reads stays 0. -/
theorem C1_counterexample :
    ¬(((mar_augment_update_instance trigW solverId c1inst c1frame).2 =
        ERR_TOO_FEW_MATCHING) ↔
      (countAcceptedFull c1frame
          (patchPass (gatherContained trigW c1inst c1frame) c1inst.initial_keypoints
            c1inst.num_initial_keypoints initMatchState).2
          c1inst.num_initial_keypoints < 5
        ∨ 1000 < |(solverId (designRows (finalMatchState trigW c1inst c1frame))).m01 +
            (solverId (designRows (finalMatchState trigW c1inst c1frame))).m10|
        ∨ 1000 < |(solverId (designRows (finalMatchState trigW c1inst c1frame))).m00 -
            (solverId (designRows (finalMatchState trigW c1inst c1frame))).m11|)) := by
  intro h
  have hrhs := h.mp c1_status
  rw [c1_gather,
    show patchPass c1frame c1inst.initial_keypoints c1inst.num_initial_keypoints
      initMatchState = (initMatchState, [c1ref0, c1ref1]) from c1_patch] at hrhs
  rcases hrhs with hlt | habs | habs
  · rw [show ((initMatchState, [c1ref0, c1ref1]) :
        MatchState × List Keypoint).2 = [c1ref0, c1ref1] from rfl, c1_count] at hlt
    omega
  · norm_num [solverId] at habs
  · norm_num [solverId] at habs

theorem fitStage_low (trig : Trig) (solver : Solver) (inst1 : Augmentation)
    (frame : List Keypoint) (st : MatchState) (h : ¬5 ≤ st.matched) :
    fitStage trig solver inst1 frame st = (inst1, ERR_TOO_FEW_MATCHING) := by
  unfold fitStage
  rw [if_neg h]

theorem fitStage_skew (trig : Trig) (solver : Solver) (inst1 : Augmentation)
    (frame : List Keypoint) (st : MatchState) (h5 : 5 ≤ st.matched)
    (h : 1000 < |(solver (designRows st)).m01 + (solver (designRows st)).m10|) :
    fitStage trig solver inst1 frame st = (inst1, ERR_TOO_FEW_MATCHING) := by
  unfold fitStage
  rw [if_pos h5]
  show (if 1000 < |(solver (designRows st)).m01 + (solver (designRows st)).m10| then
       ((inst1, ERR_TOO_FEW_MATCHING) : Augmentation × ℕ)
     else if 1000 < |(solver (designRows st)).m00 - (solver (designRows st)).m11| then
       (inst1, ERR_TOO_FEW_MATCHING)
     else (growStep trig { inst1 with
         transform := mat3OfParams (solver (designRows st)) } frame, ERR_NONE)) =
    (inst1, ERR_TOO_FEW_MATCHING)
  rw [if_pos h]

theorem fitStage_scale (trig : Trig) (solver : Solver) (inst1 : Augmentation)
    (frame : List Keypoint) (st : MatchState) (h5 : 5 ≤ st.matched)
    (hsk : ¬1000 < |(solver (designRows st)).m01 + (solver (designRows st)).m10|)
    (h : 1000 < |(solver (designRows st)).m00 - (solver (designRows st)).m11|) :
    fitStage trig solver inst1 frame st = (inst1, ERR_TOO_FEW_MATCHING) := by
  unfold fitStage
  rw [if_pos h5]
  show (if 1000 < |(solver (designRows st)).m01 + (solver (designRows st)).m10| then
       ((inst1, ERR_TOO_FEW_MATCHING) : Augmentation × ℕ)
     else if 1000 < |(solver (designRows st)).m00 - (solver (designRows st)).m11| then
       (inst1, ERR_TOO_FEW_MATCHING)
     else (growStep trig { inst1 with
         transform := mat3OfParams (solver (designRows st)) } frame, ERR_NONE)) =
    (inst1, ERR_TOO_FEW_MATCHING)
  rw [if_neg hsk, if_pos h]

theorem fitStage_commit (trig : Trig) (solver : Solver) (inst1 : Augmentation)
    (frame : List Keypoint) (st : MatchState) (h5 : 5 ≤ st.matched)
    (hsk : ¬1000 < |(solver (designRows st)).m01 + (solver (designRows st)).m10|)
    (hsc : ¬1000 < |(solver (designRows st)).m00 - (solver (designRows st)).m11|) :
    fitStage trig solver inst1 frame st =
      (growStep trig { inst1 with
          transform := mat3OfParams (solver (designRows st)) } frame, ERR_NONE) := by
  unfold fitStage
  rw [if_pos h5]
  show (if 1000 < |(solver (designRows st)).m01 + (solver (designRows st)).m10| then
       ((inst1, ERR_TOO_FEW_MATCHING) : Augmentation × ℕ)
     else if 1000 < |(solver (designRows st)).m00 - (solver (designRows st)).m11| then
       (inst1, ERR_TOO_FEW_MATCHING)
     else (growStep trig { inst1 with
         transform := mat3OfParams (solver (designRows st)) } frame, ERR_NONE)) =
    (growStep trig { inst1 with
        transform := mat3OfParams (solver (designRows st)) } frame, ERR_NONE)
  rw [if_neg hsk, if_neg hsc]

theorem growStep_transform (trig : Trig) (inst : Augmentation)
    (frame : List Keypoint) : (growStep trig inst frame).transform = inst.transform := rfl

theorem snd_none_ne_toofew (a : Augmentation) :
    ((a, ERR_NONE) : Augmentation × ℕ).2 ≠ ERR_TOO_FEW_MATCHING := by
  simp [ERR_NONE, ERR_TOO_FEW_MATCHING]

/-- Claim C1 as amended: the recorded status is InsufficientMatches exactly
when the number of matches accepted into the top-K buffer (those whose
distance beats the worst buffer entry, the buffer being initialized to the
threshold MAR_MAX_KEYPOINT_DIFFERENCE = 2) after the fallback pass, when
taken, is below 5, or the fitted parameters violate a strict validation
bound; on failure both transforms are untouched, and otherwise the status
is Ok and the fitted transform is committed with bottom row 0, 0, 1. -/
theorem C1_amended (trig : Trig) (solver : Solver) (inst : Augmentation)
    (frame : List Keypoint) :
    (((mar_augment_update_instance trig solver inst frame).2 = ERR_TOO_FEW_MATCHING) ↔
      ((finalMatchState trig inst frame).matched < 5
        ∨ 1000 < |(solver (designRows (finalMatchState trig inst frame))).m01 +
            (solver (designRows (finalMatchState trig inst frame))).m10|
        ∨ 1000 < |(solver (designRows (finalMatchState trig inst frame))).m00 -
            (solver (designRows (finalMatchState trig inst frame))).m11|))
    ∧ ((mar_augment_update_instance trig solver inst frame).2 = ERR_TOO_FEW_MATCHING →
        (mar_augment_update_instance trig solver inst frame).1.transform =
          inst.transform
        ∧ (mar_augment_update_instance trig solver inst frame).1.transform_inverse =
            inst.transform_inverse)
    ∧ ((mar_augment_update_instance trig solver inst frame).2 ≠ ERR_TOO_FEW_MATCHING →
        (mar_augment_update_instance trig solver inst frame).2 = ERR_NONE
        ∧ (mar_augment_update_instance trig solver inst frame).1.transform =
            mat3OfParams (solver (designRows (finalMatchState trig inst frame)))
        ∧ (mar_augment_update_instance trig solver inst frame).1.transform.m20 = 0
        ∧ (mar_augment_update_instance trig solver inst frame).1.transform.m21 = 0
        ∧ (mar_augment_update_instance trig solver inst frame).1.transform.m22 = 1) := by
  have hkey : mar_augment_update_instance trig solver inst frame =
      fitStage trig solver
        { inst with initial_keypoints :=
            (patchPass (gatherContained trig inst frame) inst.initial_keypoints
              inst.num_initial_keypoints initMatchState).2 }
        frame (finalMatchState trig inst frame) := rfl
  by_cases h5 : 5 ≤ (finalMatchState trig inst frame).matched
  · by_cases hsk : 1000 <
        |(solver (designRows (finalMatchState trig inst frame))).m01 +
          (solver (designRows (finalMatchState trig inst frame))).m10|
    · rw [hkey, fitStage_skew _ _ _ _ _ h5 hsk]
      exact ⟨iff_of_true rfl (Or.inr (Or.inl hsk)), fun _ => ⟨rfl, rfl⟩,
        fun hne => absurd rfl hne⟩
    · by_cases hsc : 1000 <
          |(solver (designRows (finalMatchState trig inst frame))).m00 -
            (solver (designRows (finalMatchState trig inst frame))).m11|
      · rw [hkey, fitStage_scale _ _ _ _ _ h5 hsk hsc]
        exact ⟨iff_of_true rfl (Or.inr (Or.inr hsc)), fun _ => ⟨rfl, rfl⟩,
          fun hne => absurd rfl hne⟩
      · rw [hkey, fitStage_commit _ _ _ _ _ h5 hsk hsc]
        refine ⟨iff_of_false (snd_none_ne_toofew _) ?_,
          fun hcon => absurd hcon (snd_none_ne_toofew _),
          fun _ => ⟨rfl, rfl, rfl, rfl, rfl⟩⟩
        rintro (h | h | h)
        · omega
        · exact hsk h
        · exact hsc h
  · rw [hkey, fitStage_low _ _ _ _ _ h5]
    exact ⟨iff_of_true rfl (Or.inl (by omega)), fun _ => ⟨rfl, rfl⟩,
      fun hne => absurd rfl hne⟩

/-- General half of the fallback property: when the patch-local matching
pass counts fewer than 5 matches, the whole per-frame result is the fit
stage applied to the full-frame fallback pass started from a freshly
initialized buffer and counter, run over the entire frame keypoint set
against the (drifted) references. -/
theorem C7_fallback (trig : Trig) (solver : Solver) (inst : Augmentation)
    (frame : List Keypoint)
    (h : (patchPass (gatherContained trig inst frame) inst.initial_keypoints
        inst.num_initial_keypoints initMatchState).1.matched < 5) :
    mar_augment_update_instance trig solver inst frame =
      fitStage trig solver
        { inst with initial_keypoints :=
            (patchPass (gatherContained trig inst frame) inst.initial_keypoints
              inst.num_initial_keypoints initMatchState).2 }
        frame
        (fullPass frame
          (patchPass (gatherContained trig inst frame) inst.initial_keypoints
            inst.num_initial_keypoints initMatchState).2
          inst.num_initial_keypoints initMatchState) := by
  unfold mar_augment_update_instance
  show fitStage trig solver
      { inst with initial_keypoints :=
          (patchPass (gatherContained trig inst frame) inst.initial_keypoints
            inst.num_initial_keypoints initMatchState).2 }
      frame
      (if (patchPass (gatherContained trig inst frame) inst.initial_keypoints
          inst.num_initial_keypoints initMatchState).1.matched < 5 then
        fullPass frame
          (patchPass (gatherContained trig inst frame) inst.initial_keypoints
            inst.num_initial_keypoints initMatchState).2
          inst.num_initial_keypoints initMatchState
      else (patchPass (gatherContained trig inst frame) inst.initial_keypoints
          inst.num_initial_keypoints initMatchState).1) = _
  rw [if_pos h]

theorem origin_not_in_ok : is_point_in_ellipse trigW 0 0 100 100 20 20 0 = false := by
  norm_num [is_point_in_ellipse, trigW]

theorem ok_gather : gatherContained trigW okInst okFrame = [] := by
  unfold gatherContained
  rw [List.filter_eq_nil_iff]
  intro kp _
  show ¬(is_point_in_ellipse trigW
      (applyMat3 okInst.transform_inverse kp.x kp.y).1
      (applyMat3 okInst.transform_inverse kp.x kp.y).2
      okInst.mser.ellipse_x okInst.mser.ellipse_y okInst.mser.ellipse_a
      okInst.mser.ellipse_b okInst.mser.ellipse_angle = true)
  rw [show okInst.transform_inverse = zeroMat3 from rfl, applyMat3_zero]
  show ¬(is_point_in_ellipse trigW 0 0 100 100 20 20 0 = true)
  rw [origin_not_in_ok]
  simp

set_option maxHeartbeats 1600000 in
theorem ok_best (eps : ℚ) (h1 : 0 < eps) (h2 : eps ≤ 1 / 20) (q : Keypoint)
    (hq : q.descriptor = spike 0 (1 + eps)) :
    get_best_keypoint_match q [okRef 0, okRef 1, okRef 2, okRef 3, okRef 4] =
      (0, eps) := by
  have hM := flt_max_big30
  have hd0 : get_keypoint_difference q (okRef 0) = eps := by
    rw [@dist_spike q (okRef 0) 0 0 (1 + eps) 1 hq rfl, if_pos rfl,
      show (1 + eps - 1 : ℚ) = eps from by ring]
    exact abs_of_pos h1
  have key : ∀ c : Fin 128, ¬(0 : Fin 128) = c → ∀ r : Keypoint,
      r.descriptor = spike c 1 → get_keypoint_difference q r = 2 + eps := by
    intro c hc r hr
    rw [@dist_spike q r 0 c (1 + eps) 1 hq hr, if_neg hc,
      abs_of_pos (by linarith : (0 : ℚ) < 1 + eps),
      abs_one]
    ring
  have hd1 : get_keypoint_difference q (okRef 1) = 2 + eps :=
    key 1 (by decide) (okRef 1) rfl
  have hd2 : get_keypoint_difference q (okRef 2) = 2 + eps :=
    key 2 (by decide) (okRef 2) rfl
  have hd3 : get_keypoint_difference q (okRef 3) = 2 + eps :=
    key 3 (by decide) (okRef 3) rfl
  have hd4 : get_keypoint_difference q (okRef 4) = 2 + eps :=
    key 4 (by decide) (okRef 4) rfl
  unfold get_best_keypoint_match bm_step
  simp only [List.foldl_cons, List.foldl_nil, hd0, hd1, hd2, hd3, hd4]
  rw [if_pos (show eps < FLT_MAX by linarith)]
  simp only []
  rw [if_neg (show ¬2 + eps < eps by linarith),
    if_pos (show 2 + eps < FLT_MAX by linarith)]
  simp only []
  rw [if_neg (show ¬2 + eps < eps by linarith),
    if_neg (show ¬2 + eps < 2 + eps by linarith)]
  rw [if_neg (show ¬2 + eps < eps by linarith),
    if_neg (show ¬2 + eps < 2 + eps by linarith)]
  rw [if_neg (show ¬2 + eps < eps by linarith),
    if_neg (show ¬2 + eps < 2 + eps by linarith)]
  simp only []
  rw [if_pos (show eps * (7 / 2) ≤ 2 + eps by linarith)]
  norm_num

/-- Concrete instantiation of the fallback property: in the recovery
scenario the patch gather is empty, so the patch pass counts 0 matches
and the per-frame result is the fit stage applied to the full-frame
fallback pass. -/
theorem C7_fallback_witness :
    ((patchPass (gatherContained trigW okInst okFrame) okInst.initial_keypoints
        okInst.num_initial_keypoints initMatchState).1.matched < 5)
    ∧ mar_augment_update_instance trigW solverId okInst okFrame =
      fitStage trigW solverId
        { okInst with initial_keypoints :=
            (patchPass (gatherContained trigW okInst okFrame) okInst.initial_keypoints
              okInst.num_initial_keypoints initMatchState).2 }
        okFrame
        (fullPass okFrame
          (patchPass (gatherContained trigW okInst okFrame) okInst.initial_keypoints
            okInst.num_initial_keypoints initMatchState).2
          okInst.num_initial_keypoints initMatchState) := by
  have h : (patchPass (gatherContained trigW okInst okFrame) okInst.initial_keypoints
      okInst.num_initial_keypoints initMatchState).1.matched < 5 := by
    rw [ok_gather]
    decide
  exact ⟨h, C7_fallback trigW solverId okInst okFrame h⟩

theorem listMin_cons (x : ℚ) (xs : List ℚ) :
    listMin (x :: xs) = min x (listMin xs) := rfl

theorem listMin_le_flt (xs : List ℚ) : listMin xs ≤ FLT_MAX := by
  induction xs with
  | nil => exact le_refl _
  | cons x xs ih =>
    rw [listMin_cons]
    exact le_trans (min_le_right _ _) ih

theorem listMin_le_mem {x : ℚ} {xs : List ℚ} (h : x ∈ xs) : listMin xs ≤ x := by
  induction xs with
  | nil => cases h
  | cons y ys ih =>
    rw [listMin_cons]
    rcases List.mem_cons.mp h with rfl | hx
    · exact min_le_left _ _
    · exact le_trans (min_le_right _ _) (ih hx)

theorem le_listMin {q : ℚ} {xs : List ℚ} (hf : q ≤ FLT_MAX)
    (h : ∀ x ∈ xs, q ≤ x) : q ≤ listMin xs := by
  induction xs with
  | nil => exact hf
  | cons y ys ih =>
    rw [listMin_cons]
    exact le_min (h y (List.mem_cons_self _ _))
      (ih fun x hx => h x (List.mem_cons.mpr (Or.inr hx)))

theorem listMin_mem {xs : List ℚ} (hne : xs ≠ [])
    (hlt : ∀ x ∈ xs, x < FLT_MAX) : listMin xs ∈ xs := by
  induction xs with
  | nil => exact absurd rfl hne
  | cons y ys ih =>
    rw [listMin_cons]
    by_cases hys : ys = []
    · subst hys
      rw [show listMin ([] : List ℚ) = FLT_MAX from rfl,
        min_eq_left (le_of_lt (hlt y (List.mem_cons_self _ _)))]
      exact List.mem_cons_self _ _
    · rcases min_cases y (listMin ys) with ⟨he, _⟩ | ⟨he, _⟩
      · rw [he]
        exact List.mem_cons_self _ _
      · rw [he]
        exact List.mem_cons.mpr
          (Or.inr (ih hys fun x hx => hlt x (List.mem_cons.mpr (Or.inr hx))))

theorem listMin_append_singleton (xs : List ℚ) (d : ℚ) :
    listMin (xs ++ [d]) = min (listMin xs) d := by
  induction xs with
  | nil =>
    show min d FLT_MAX = min FLT_MAX d
    rw [min_comm]
  | cons y ys ih =>
    show min y (listMin (ys ++ [d])) = min (min y (listMin ys)) d
    rw [ih, min_assoc]

theorem bm_d1_le_d2 (k : Keypoint) (kps : List Keypoint) :
    bm_d1 k kps ≤ bm_d2 k kps := by
  unfold bm_d2
  refine le_listMin (listMin_le_flt _) ?_
  intro x hx
  exact listMin_le_mem ((List.eraseIdx_sublist _ _).subset hx)

theorem bm_fold_spec (k : Keypoint) (l : List Keypoint) :
    l ≠ [] → (∀ r ∈ l, get_keypoint_difference k r < FLT_MAX) →
    l.foldl (bm_step k) ⟨-1, FLT_MAX, 0, 0⟩ =
      ⟨(bm_argmin k l : ℤ), bm_d1 k l, bm_d2 k l, l.length⟩ := by
  induction l using List.reverseRecOn with
  | nil =>
    intro hne _
    exact absurd rfl hne
  | append_singleton xs r ih =>
    intro hne hlt
    have hdr : get_keypoint_difference k r < FLT_MAX :=
      hlt r (List.mem_append.mpr (Or.inr (List.mem_cons_self _ _)))
    have hD : bm_dists k (xs ++ [r]) =
        bm_dists k xs ++ [get_keypoint_difference k r] := by
      unfold bm_dists
      rw [List.map_append]
      rfl
    have h1 : bm_d1 k (xs ++ [r]) =
        min (bm_d1 k xs) (get_keypoint_difference k r) := by
      unfold bm_d1
      rw [hD, listMin_append_singleton]
    by_cases hxs : xs = []
    · subst hxs
      simp only [List.nil_append]
      have h1s : bm_d1 k [r] = get_keypoint_difference k r := by
        show min (get_keypoint_difference k r) FLT_MAX = _
        exact min_eq_left hdr.le
      have has : bm_argmin k [r] = 0 := by
        unfold bm_argmin
        rw [h1s]
        show List.indexOf (get_keypoint_difference k r)
          [get_keypoint_difference k r] = 0
        exact List.indexOf_cons_self _ _
      have h2s : bm_d2 k [r] = FLT_MAX := by
        unfold bm_d2
        rw [has]
        rfl
      have hfs : List.foldl (bm_step k) ⟨-1, FLT_MAX, 0, 0⟩ [r] =
          ⟨0, get_keypoint_difference k r, FLT_MAX, 1⟩ := by
        show (if get_keypoint_difference k r < FLT_MAX then
            (⟨((0 : ℕ) : ℤ), get_keypoint_difference k r, FLT_MAX, 1⟩ : BMState)
          else if get_keypoint_difference k r < 0 then
            ⟨-1, FLT_MAX, get_keypoint_difference k r, 1⟩
          else ⟨-1, FLT_MAX, 0, 1⟩) = _
        rw [if_pos hdr]
        rfl
      rw [hfs, h1s, has, h2s]
      rfl
    · have hlt' : ∀ q ∈ xs, get_keypoint_difference k q < FLT_MAX :=
        fun q hq => hlt q (List.mem_append.mpr (Or.inl hq))
      have hDne : bm_dists k xs ≠ [] := by
        intro h0
        exact hxs (List.map_eq_nil_iff.mp h0)
      have hDlt : ∀ x ∈ bm_dists k xs, x < FLT_MAX := by
        intro x hx
        obtain ⟨q, hq, rfl⟩ := List.mem_map.mp hx
        exact hlt' q hq
      have hmemD : bm_d1 k xs ∈ bm_dists k xs := listMin_mem hDne hDlt
      have haltlen : bm_argmin k xs < (bm_dists k xs).length :=
        List.indexOf_lt_length.mpr hmemD
      have hstep : (xs ++ [r]).foldl (bm_step k) ⟨-1, FLT_MAX, 0, 0⟩ =
          bm_step k ⟨(bm_argmin k xs : ℤ), bm_d1 k xs, bm_d2 k xs, xs.length⟩ r := by
        rw [List.foldl_append, ih hxs hlt']
        rfl
      rw [hstep]
      show (if get_keypoint_difference k r < bm_d1 k xs then
          (⟨(xs.length : ℤ), get_keypoint_difference k r, bm_d1 k xs,
            xs.length + 1⟩ : BMState)
        else if get_keypoint_difference k r < bm_d2 k xs then
          ⟨(bm_argmin k xs : ℤ), bm_d1 k xs, get_keypoint_difference k r,
            xs.length + 1⟩
        else ⟨(bm_argmin k xs : ℤ), bm_d1 k xs, bm_d2 k xs, xs.length + 1⟩) =
        ⟨(bm_argmin k (xs ++ [r]) : ℤ), bm_d1 k (xs ++ [r]), bm_d2 k (xs ++ [r]),
          (xs ++ [r]).length⟩
      by_cases hA : get_keypoint_difference k r < bm_d1 k xs
      · have h1A : bm_d1 k (xs ++ [r]) = get_keypoint_difference k r := by
          rw [h1]
          exact min_eq_right hA.le
        have hnotmem : get_keypoint_difference k r ∉ bm_dists k xs := fun hmem =>
          absurd (listMin_le_mem hmem) (not_le.mpr hA)
        have haA : bm_argmin k (xs ++ [r]) = xs.length := by
          unfold bm_argmin
          rw [hD, h1A, List.indexOf_append_of_not_mem hnotmem,
            List.indexOf_cons_self]
          simp [bm_dists]
        have h2A : bm_d2 k (xs ++ [r]) = bm_d1 k xs := by
          unfold bm_d2
          rw [haA, hD,
            List.eraseIdx_append_of_length_le (by simp [bm_dists]),
            show xs.length - (bm_dists k xs).length = 0 by simp [bm_dists],
            List.eraseIdx_zero, List.tail_cons, List.append_nil]
          rfl
        rw [if_pos hA, h1A, haA, h2A, List.length_append]
        rfl
      · have hmle : bm_d1 k xs ≤ get_keypoint_difference k r := not_lt.mp hA
        have h1B : bm_d1 k (xs ++ [r]) = bm_d1 k xs := by
          rw [h1]
          exact min_eq_left hmle
        have haB : bm_argmin k (xs ++ [r]) = bm_argmin k xs := by
          unfold bm_argmin
          rw [hD, h1B]
          exact List.indexOf_append_of_mem hmemD
        rw [if_neg hA]
        by_cases hB : get_keypoint_difference k r < bm_d2 k xs
        · have h2B : bm_d2 k (xs ++ [r]) = get_keypoint_difference k r := by
            unfold bm_d2
            rw [haB, hD, List.eraseIdx_append_of_lt_length haltlen,
              listMin_append_singleton]
            exact min_eq_right hB.le
          rw [if_pos hB, h1B, haB, h2B, List.length_append]
          rfl
        · have h2C : bm_d2 k (xs ++ [r]) = bm_d2 k xs := by
            unfold bm_d2
            rw [haB, hD, List.eraseIdx_append_of_lt_length haltlen,
              listMin_append_singleton]
            exact min_eq_left (not_lt.mp hB)
          rw [if_neg hB, h1B, haB, h2C, List.length_append]
          rfl

/-- Claim C2: for every probe keypoint and reference sequence whose
descriptor distances stay below FLT_MAX, get_best_keypoint_match returns
the index of the reference with the smallest L1 descriptor distance d1
(first occurrence on ties) exactly when d1 * 3.5 is at most the second
smallest distance d2, and the no-match sentinel -1 otherwise; on an empty
reference sequence it returns no match with d1 reported as FLT_MAX, the
float infinity stand-in; in all cases the reported best difference equals
d1: the source function agrees with the specification-side definition
best_match_claim. -/
theorem C2_best_match (k : Keypoint) (kps : List Keypoint)
    (hlt : ∀ r ∈ kps, get_keypoint_difference k r < FLT_MAX) :
    get_best_keypoint_match k kps = best_match_claim k kps := by
  by_cases hne : kps = []
  · subst hne
    show ((if FLT_MAX * (7 / 2) ≤ 0 then (-1 : ℤ) else -1), FLT_MAX) =
      ((if FLT_MAX * (7 / 2) ≤ FLT_MAX then ((0 : ℕ) : ℤ) else -1), FLT_MAX)
    rw [if_neg (by norm_num [FLT_MAX]), if_neg (by norm_num [FLT_MAX])]
  · show ((if (kps.foldl (bm_step k) ⟨-1, FLT_MAX, 0, 0⟩).bd * (7 / 2) ≤
        (kps.foldl (bm_step k) ⟨-1, FLT_MAX, 0, 0⟩).sd then
        (kps.foldl (bm_step k) ⟨-1, FLT_MAX, 0, 0⟩).bi else -1),
      (kps.foldl (bm_step k) ⟨-1, FLT_MAX, 0, 0⟩).bd) = best_match_claim k kps
    rw [bm_fold_spec k kps hne hlt]
    rfl

/-- Concrete instantiation of the matcher correctness property: a probe at
L1 distances 3 and 103 from two references, both below FLT_MAX, where the
match at index 0 is accepted by the ratio test. -/
theorem C2_best_match_witness :
    (∀ r ∈ [c1ref0, c1ref1], get_keypoint_difference c1probe r < FLT_MAX)
    ∧ get_best_keypoint_match c1probe [c1ref0, c1ref1] =
        best_match_claim c1probe [c1ref0, c1ref1] := by
  have h : ∀ r ∈ [c1ref0, c1ref1],
      get_keypoint_difference c1probe r < FLT_MAX := by
    intro r hr
    have hM := flt_max_big30
    rcases List.mem_cons.mp hr with rfl | hr2
    · rw [c1_dist0]
      linarith
    · have hr1 : r = c1ref1 := by simpa using hr2
      subst hr1
      rw [c1_dist1]
      linarith
  exact ⟨h, C2_best_match c1probe [c1ref0, c1ref1] h⟩

theorem seed_count (trig : Trig) (region : MserRegion) (kps : List Keypoint) :
    ∀ acc : List Keypoint × ℕ × ℕ, acc.2.2 ≤ 512 →
      (kps.foldl (seedStep trig region) acc).2.2 =
        min (acc.2.2 + kps.countP (fun kp => is_point_in_ellipse trig kp.x kp.y
          region.ellipse_x region.ellipse_y region.ellipse_a region.ellipse_b
          region.ellipse_angle)) 512 := by
  induction kps with
  | nil =>
    intro acc hacc
    simp only [List.foldl_nil, List.countP_nil]
    omega
  | cons kp rest ih =>
    intro acc hacc
    rw [List.foldl_cons, List.countP_cons]
    by_cases hin : is_point_in_ellipse trig kp.x kp.y region.ellipse_x
        region.ellipse_y region.ellipse_a region.ellipse_b
        region.ellipse_angle = true
    · have h2 : (seedStep trig region acc kp).2.2 =
          if acc.2.2 ≥ 512 then 512 else acc.2.2 + 1 := by
        unfold seedStep
        rw [if_pos hin]
      have hacc2 : (seedStep trig region acc kp).2.2 ≤ 512 := by
        rw [h2]
        by_cases h5 : acc.2.2 ≥ 512
        · rw [if_pos h5]
        · rw [if_neg h5]
          omega
      rw [ih (seedStep trig region acc kp) hacc2, h2, if_pos hin]
      by_cases h5 : acc.2.2 ≥ 512
      · rw [if_pos h5]
        omega
      · rw [if_neg h5]
        omega
    · have h2 : seedStep trig region acc kp = acc := by
        unfold seedStep
        rw [if_neg hin]
      rw [h2, ih acc hacc, if_neg hin]
      rfl

theorem new_aug_some (trig : Trig) (s : MarGlobalState) (region : MserRegion)
    (kps : List Keypoint) (i : Fin 32) (hready : s.module_ready = true)
    (hfind : (List.finRange 32).find? (fun j => !s.slot_live j) = some i) :
    mar_augment_new_augmentation trig s region kps =
      (if (seedFold trig region kps (s.augmentations i).initial_keypoints).2.2 < 10
        then
        ({ s with
            augmentations := Function.update s.augmentations i
              ({ s.augmentations i with
                mser := region
                initial_keypoints :=
                  (seedFold trig region kps
                    (s.augmentations i).initial_keypoints).1
                new_keypoint_cursor :=
                  (seedFold trig region kps
                    (s.augmentations i).initial_keypoints).2.1
                num_initial_keypoints :=
                  (seedFold trig region kps
                    (s.augmentations i).initial_keypoints).2.2 }) },
         MarResult.err ERR_TOO_FEW_KEYPOINTS)
      else
        ({ s with
             augmentations := Function.update s.augmentations i
               ({ s.augmentations i with
                   mser := region
                   initial_keypoints :=
                     (seedFold trig region kps
                       (s.augmentations i).initial_keypoints).1
                   new_keypoint_cursor :=
                     (seedFold trig region kps
                       (s.augmentations i).initial_keypoints).2.1
                   num_initial_keypoints :=
                     (seedFold trig region kps
                       (s.augmentations i).initial_keypoints).2.2
                   transform := zeroMat3
                   transform_inverse := zeroMat3 })
             slot_live := Function.update s.slot_live i true
             num_augmentations := s.num_augmentations + 1 },
         MarResult.ok i)) := by
  unfold mar_augment_new_augmentation
  rw [if_neg (by rw [hready]; decide), hfind]

/-- Claim C8: for a registration request on an initialized module,
new_augmentation returns the no-resources error when every registry slot
is occupied; and when the scan finds a free slot i, it returns the
too-few-keypoints error exactly when fewer than 10 of the frame keypoints
lie inside the supplied ellipse, and otherwise succeeds returning slot
id i. -/
theorem C8_new_augmentation (trig : Trig) (s : MarGlobalState)
    (region : MserRegion) (kps : List Keypoint)
    (hready : s.module_ready = true) :
    ((∀ j : Fin 32, s.slot_live j = true) →
      (mar_augment_new_augmentation trig s region kps).2 =
        MarResult.err ERR_NO_RESOURCES)
    ∧ ∀ i : Fin 32,
        (List.finRange 32).find? (fun j => !s.slot_live j) = some i →
        (((mar_augment_new_augmentation trig s region kps).2 =
            MarResult.err ERR_TOO_FEW_KEYPOINTS) ↔
          kps.countP (fun kp => is_point_in_ellipse trig kp.x kp.y
            region.ellipse_x region.ellipse_y region.ellipse_a
            region.ellipse_b region.ellipse_angle) < 10)
        ∧ (10 ≤ kps.countP (fun kp => is_point_in_ellipse trig kp.x kp.y
            region.ellipse_x region.ellipse_y region.ellipse_a
            region.ellipse_b region.ellipse_angle) →
          (mar_augment_new_augmentation trig s region kps).2 =
            MarResult.ok i) := by
  constructor
  · intro hall
    have hnone : (List.finRange 32).find? (fun j => !s.slot_live j) = none := by
      rw [List.find?_eq_none]
      intro j _
      rw [hall j]
      decide
    unfold mar_augment_new_augmentation
    rw [if_neg (by rw [hready]; decide), hnone]
  · intro i hfind
    have key := new_aug_some trig s region kps i hready hfind
    have hcnt : (seedFold trig region kps
        (s.augmentations i).initial_keypoints).2.2 =
        min (kps.countP (fun kp => is_point_in_ellipse trig kp.x kp.y
          region.ellipse_x region.ellipse_y region.ellipse_a
          region.ellipse_b region.ellipse_angle)) 512 := by
      have h0 := seed_count trig region kps
        ((s.augmentations i).initial_keypoints, 0, 0) (Nat.zero_le 512)
      simpa [seedFold] using h0
    by_cases h10 : (seedFold trig region kps
        (s.augmentations i).initial_keypoints).2.2 < 10
    · have hsnd : (mar_augment_new_augmentation trig s region kps).2 =
          MarResult.err ERR_TOO_FEW_KEYPOINTS := by
        rw [key, if_pos h10]
      rw [hcnt] at h10
      refine ⟨⟨fun _ => by omega, fun _ => hsnd⟩, fun hge => absurd hge (by omega)⟩
    · have hsnd : (mar_augment_new_augmentation trig s region kps).2 =
          MarResult.ok i := by
        rw [key, if_neg h10]
      rw [hcnt] at h10
      refine ⟨⟨fun he => ?_, fun hlt => absurd hlt (by omega)⟩, fun _ => hsnd⟩
      rw [hsnd] at he
      exact MarResult.noConfusion he

/-- Concrete instantiation of the registration property: on the fresh
module state, registering the unit circle with ten origin keypoints
succeeds with slot 0, and with nine origin keypoints fails with the
too-few-keypoints error. -/
theorem C8_witness :
    freshState.module_ready = true
    ∧ (mar_augment_new_augmentation trigW freshState region8 kps10).2 =
        MarResult.ok 0
    ∧ (mar_augment_new_augmentation trigW freshState region8 kps9).2 =
        MarResult.err ERR_TOO_FEW_KEYPOINTS := by
  have hready : freshState.module_ready = true := rfl
  have hfind : (List.finRange 32).find? (fun j => !freshState.slot_live j) =
      some 0 := by decide
  have hp : (fun kp : Keypoint => is_point_in_ellipse trigW kp.x kp.y
      region8.ellipse_x region8.ellipse_y region8.ellipse_a region8.ellipse_b
      region8.ellipse_angle) defaultKeypoint = true := origin_in_unit
  have hc10 : kps10.countP (fun kp => is_point_in_ellipse trigW kp.x kp.y
      region8.ellipse_x region8.ellipse_y region8.ellipse_a region8.ellipse_b
      region8.ellipse_angle) = 10 := by
    rw [show kps10 = List.replicate 10 defaultKeypoint from rfl,
      countP_replicate, if_pos hp]
  have hc9 : kps9.countP (fun kp => is_point_in_ellipse trigW kp.x kp.y
      region8.ellipse_x region8.ellipse_y region8.ellipse_a region8.ellipse_b
      region8.ellipse_angle) = 9 := by
    rw [show kps9 = List.replicate 9 defaultKeypoint from rfl,
      countP_replicate, if_pos hp]
  refine ⟨hready, ?_, ?_⟩
  · exact ((C8_new_augmentation trigW freshState region8 kps10 hready).2 0
      hfind).2 (by rw [hc10])
  · exact ((C8_new_augmentation trigW freshState region8 kps9 hready).2 0
      hfind).1.mpr (by rw [hc9]; omega)

theorem ok_probe_best (j : ℕ) (hj : j < 5) :
    get_best_keypoint_match (okProbe j)
      ([okRef 0, okRef 1, okRef 2, okRef 3, okRef 4].take 5) =
      (0, (5 - (j : ℚ)) / 100) := by
  have hjq : (j : ℚ) ≤ 4 := by exact_mod_cast Nat.lt_succ_iff.mp hj
  have hj0 : (0 : ℚ) ≤ (j : ℚ) := Nat.cast_nonneg j
  have h1 : 0 < (5 - (j : ℚ)) / 100 := div_pos (by linarith) (by norm_num)
  have h2 : (5 - (j : ℚ)) / 100 ≤ 1 / 20 := by
    rw [div_le_div_iff₀ (by norm_num) (by norm_num)]
    linarith
  show get_best_keypoint_match (okProbe j)
    [okRef 0, okRef 1, okRef 2, okRef 3, okRef 4] = _
  exact ok_best ((5 - (j : ℚ)) / 100) h1 h2 (okProbe j) rfl

theorem ok_map_dists :
    (okFrame.map fun q => (get_best_keypoint_match q
        ([okRef 0, okRef 1, okRef 2, okRef 3, okRef 4].take 5)).2) =
      [5 / 100, 4 / 100, 3 / 100, 2 / 100, 1 / 100] := by
  rw [show okFrame = [okProbe 0, okProbe 1, okProbe 2, okProbe 3, okProbe 4]
    from rfl]
  simp only [List.map_cons, List.map_nil]
  rw [ok_probe_best 0 (by norm_num), ok_probe_best 1 (by norm_num),
    ok_probe_best 2 (by norm_num), ok_probe_best 3 (by norm_num),
    ok_probe_best 4 (by norm_num)]
  norm_num

theorem ok_full :
    (fullPass okFrame [okRef 0, okRef 1, okRef 2, okRef 3, okRef 4] 5
      initMatchState).matched = 5 := by
  have hj : ∀ q ∈ okFrame, ∃ j : ℕ, j < 5 ∧ q = okProbe j := by
    intro q hq
    rcases (show q = okProbe 0 ∨ q = okProbe 1 ∨ q = okProbe 2 ∨ q = okProbe 3
        ∨ q = okProbe 4 by simpa [okFrame] using hq) with h | h | h | h | h
    exacts [⟨0, by norm_num, h⟩, ⟨1, by norm_num, h⟩, ⟨2, by norm_num, h⟩,
      ⟨3, by norm_num, h⟩, ⟨4, by norm_num, h⟩]
  have hlt2 : ∀ q ∈ okFrame, (get_best_keypoint_match q
      ([okRef 0, okRef 1, okRef 2, okRef 3, okRef 4].take 5)).2 < 2 := by
    intro q hq
    obtain ⟨j, hj5, rfl⟩ := hj q hq
    rw [ok_probe_best j hj5]
    show (5 - (j : ℚ)) / 100 < 2
    have hj0 : (0 : ℚ) ≤ (j : ℚ) := Nat.cast_nonneg j
    rw [div_lt_iff₀ (by norm_num : (0 : ℚ) < 100)]
    linarith
  have hcount := fullPass_matched [okRef 0, okRef 1, okRef 2, okRef 3, okRef 4]
    5 okFrame initMatchState
    (by
      intro q hq
      obtain ⟨j, hj5, rfl⟩ := hj q hq
      rw [ok_probe_best j hj5]
      simp)
    (by
      rw [ok_map_dists]
      norm_num [List.sorted_cons])
    hlt2
    (by
      intro e he q hq
      have he2 : e = initEntry := List.eq_of_mem_replicate he
      subst he2
      exact hlt2 q hq)
  rw [hcount]
  rfl

theorem ok_final : finalMatchState trigW okInst okFrame =
    fullPass okFrame [okRef 0, okRef 1, okRef 2, okRef 3, okRef 4] 5
      initMatchState := by
  unfold finalMatchState
  rw [ok_gather]
  show (if (0 : ℕ) < 5 then
      fullPass okFrame [okRef 0, okRef 1, okRef 2, okRef 3, okRef 4] 5
        initMatchState
    else initMatchState) = _
  rw [if_pos (by norm_num : (0 : ℕ) < 5)]

theorem ok_status :
    (mar_augment_update_instance trigW solverId okInst okFrame).2 =
      ERR_NONE := by
  have hpm : (patchPass (gatherContained trigW okInst okFrame)
      okInst.initial_keypoints okInst.num_initial_keypoints
      initMatchState).1.matched < 5 := by
    rw [ok_gather]
    decide
  have hrefs : (patchPass (gatherContained trigW okInst okFrame)
      okInst.initial_keypoints okInst.num_initial_keypoints
      initMatchState).2 = [okRef 0, okRef 1, okRef 2, okRef 3, okRef 4] := by
    rw [ok_gather]
    rfl
  have hkey := C7_fallback trigW solverId okInst okFrame hpm
  rw [hkey, hrefs,
    show okInst.num_initial_keypoints = 5 from rfl]
  have h5 : 5 ≤ (fullPass okFrame [okRef 0, okRef 1, okRef 2, okRef 3, okRef 4]
      5 initMatchState).matched := le_of_eq ok_full.symm
  rw [fitStage_commit _ _ _ _ _ h5 (by norm_num [solverId])
    (by norm_num [solverId])]

/-- Claim C7: when the patch-local matching pass counts fewer than
MAR_MIN_NUM_OF_MATCHED_KEYPOINTS = 5 matches, the buffer and the match
counter are reset and the matching pass is repeated over the entire frame
keypoint set, and the per-frame result is the fit stage applied to that
fallback pass (first conjunct, for every instance and frame); in
particular, in the recovery scenario whose five references are present in
the frame but lie outside the predicted patch, the patch pass counts 0
matches, the full-frame fallback pass counts 5 matches, and the recorded
per-frame status is MAR_ERROR_NONE (remaining conjuncts). -/
theorem C7_fallback_recovers :
    (∀ (trig : Trig) (solver : Solver) (inst : Augmentation)
        (frame : List Keypoint),
      (patchPass (gatherContained trig inst frame) inst.initial_keypoints
          inst.num_initial_keypoints initMatchState).1.matched < 5 →
      mar_augment_update_instance trig solver inst frame =
        fitStage trig solver
          { inst with initial_keypoints :=
              (patchPass (gatherContained trig inst frame)
                inst.initial_keypoints inst.num_initial_keypoints
                initMatchState).2 }
          frame
          (fullPass frame
            (patchPass (gatherContained trig inst frame)
              inst.initial_keypoints inst.num_initial_keypoints
              initMatchState).2
            inst.num_initial_keypoints initMatchState))
    ∧ (patchPass (gatherContained trigW okInst okFrame)
        okInst.initial_keypoints okInst.num_initial_keypoints
        initMatchState).1.matched < 5
    ∧ (finalMatchState trigW okInst okFrame).matched = 5
    ∧ (mar_augment_update_instance trigW solverId okInst okFrame).2 =
        ERR_NONE := by
  refine ⟨C7_fallback, ?_, ?_, ok_status⟩
  · rw [ok_gather]
    decide
  · rw [ok_final]
    exact ok_full
